import Mathlib

/-!
stalker: metrics translation and buffering (pkg/influx/cadvisor.go), the
repositories (internal/repositories) and the scrape cycle (internal/services).

A shallow embedding of the translator functions and of the buffer of
`CAdvisorClient`, of the two repositories and of the service, followed by theorems
about them.

Conventions of the embedding

* A Go `map[string]string` is the list of its entries in the order in which a
  `range` loop visits them; the keys of a map are pairwise distinct
  (`NodupKeys`).  Quantifying over all such lists covers every map and every
  iteration order.
* A pointer that the code dereferences is an `Option`; a nil dereference or an
  index out of range is a run-time panic, and a function that can panic returns
  `Option`, `none` standing for the panic.
* Unsigned machine integers are `Nat`, signed ones are `Int`; the conversions of
  `toSignedIfUnsigned` wrap explicitly modulo `2 ^ w`.
* Instants and durations are `Int` nanoseconds.
-/

namespace Stalker

/-! ## Values stored in a field (Go `interface{}`) -/

/-- Dynamic values that reach a field of a point: the integer types of Go, strings,
and `other` for a value of any further type, identified by its `%v` rendering. -/
inductive Value where
  | uint64 (v : Nat)
  | uint32 (v : Nat)
  | uint16 (v : Nat)
  | uint8 (v : Nat)
  | uint (v : Nat)
  | int64 (v : Int)
  | int32 (v : Int)
  | int16 (v : Int)
  | int8 (v : Int)
  | int (v : Int)
  | str (v : String)
  | other (rendered : String)
  deriving DecidableEq, Repr

/-- Width in bits of Go `uint` and `int` on the 64-bit platforms the agent is built for. -/
def uintSize : Nat := 64

/-- Go conversion `intW(v)` of an unsigned `v` of width `w`: the bit pattern is kept,
so the result is the two's-complement reading of `v mod 2 ^ w`. -/
def wrapSigned (w : Nat) (v : Nat) : Int :=
  if v % 2 ^ w < 2 ^ (w - 1) then ((v % 2 ^ w : Nat) : Int)
  else ((v % 2 ^ w : Nat) : Int) - ((2 ^ w : Nat) : Int)

/-- Function `toSignedIfUnsigned` of cadvisor.go: the type switch over the unsigned types. -/
def toSignedIfUnsigned (value : Value) : Value :=
  match value with
  | .uint64 v => .int64 (wrapSigned 64 v)
  | .uint32 v => .int32 (wrapSigned 32 v)
  | .uint16 v => .int16 (wrapSigned 16 v)
  | .uint8 v => .int8 (wrapSigned 8 v)
  | .uint v => .int (wrapSigned uintSize v)
  | _ => value

/-- The unsigned value `u` of width `w`, for the four fixed widths. -/
def Value.ofUnsigned (w : Nat) (u : Nat) : Option Value :=
  if w = 64 then some (.uint64 u)
  else if w = 32 then some (.uint32 u)
  else if w = 16 then some (.uint16 u)
  else if w = 8 then some (.uint8 u)
  else none

/-- The signed value `i` of width `w`, for the four fixed widths. -/
def Value.ofSigned (w : Nat) (i : Int) : Option Value :=
  if w = 64 then some (.int64 i)
  else if w = 32 then some (.int32 i)
  else if w = 16 then some (.int16 i)
  else if w = 8 then some (.int8 i)
  else none

/-- Whether the dynamic type of the value is one of the unsigned integer types. -/
def Value.isUnsigned : Value → Bool
  | .uint64 _ => true
  | .uint32 _ => true
  | .uint16 _ => true
  | .uint8 _ => true
  | .uint _ => true
  | _ => false

/-- Whether the dynamic type of the value is an integer type. -/
def Value.isNumeric : Value → Bool
  | .str _ => false
  | .other _ => false
  | _ => true

/-! ## Points (the `write.Point` of the InfluxDB client) -/

/-- Instants and durations, in nanoseconds. -/
abbrev Time := Int

/-- A Go `map[string]string`, as the list of its entries in iteration order. -/
abbrev StrMap := List (String × String)

/-- Keys of an entry list are pairwise distinct. -/
def NodupKeys {β : Type} (m : List (String × β)) : Prop := (m.map Prod.fst).Nodup

instance {β : Type} (m : List (String × β)) : Decidable (NodupKeys m) := by
  unfold NodupKeys; infer_instance

/-- Assignment `m[k] = v` on a map: an existing key keeps its place and takes the new
value, a new key is added. -/
def mapSet : StrMap → String → String → StrMap
  | [], k, v => [(k, v)]
  | (k0, v0) :: rest, k, v => if k = k0 then (k0, v) :: rest else (k0, v0) :: mapSet rest k v

/-- A measurement sample: name, tag set, field set and timestamp.  The tag set is the
list of (key, value) pairs the client library keeps. -/
structure Point where
  measurement : String
  tags : StrMap
  fields : List (String × Value)
  timestamp : Time
  deriving DecidableEq, Repr

/-- Value of the tag `k` of a point, if the point has that tag. -/
def Point.tag (p : Point) (k : String) : Option String := p.tags.lookup k

/-- Value of the field `k` of a point, if the point has that field. -/
def Point.field (p : Point) (k : String) : Option Value := p.fields.lookup k

/-- Library normalisation of a field value in `write.NewPoint`: signed integers are
widened to `int64`, unsigned ones to `uint64`, strings are kept, and a value of any
other type is stored as its `%v` rendering. -/
def convertField : Value → Value
  | .int64 v => .int64 v
  | .str v => .str v
  | .int v => .int64 v
  | .uint v => .uint64 v
  | .uint64 v => .uint64 v
  | .int32 v => .int64 v
  | .int16 v => .int64 v
  | .int8 v => .int64 v
  | .uint32 v => .uint64 v
  | .uint16 v => .uint64 v
  | .uint8 v => .uint64 v
  | .other rendered => .str rendered

/-- Library constructor `write.NewPoint`: one tag per entry of the tag map, one field
per entry of the field map, each field value normalised.  (The library also sorts
tags and fields by key; the order is not observable through `Point.tag` and
`Point.field` since keys are distinct, and is left as the iteration order.) -/
def NewPoint (measurement : String) (tags : StrMap) (fields : List (String × Value))
    (ts : Time) : Point :=
  { measurement := measurement
    tags := tags
    fields := fields.map fun kv => (kv.1, convertField kv.2)
    timestamp := ts }

/-- Library method `Point.AddTag`: scan the tags; the first tag with key `k` takes the
value `v`; if there is none, the tag is appended. -/
def AddTag : StrMap → String → String → StrMap
  | [], k, v => [(k, v)]
  | (k0, v0) :: rest, k, v => if k = k0 then (k0, v) :: rest else (k0, v0) :: AddTag rest k v

/-- Method `Point.AddTag` on a point. -/
def Point.AddTag (p : Point) (k v : String) : Point :=
  { p with tags := Stalker.AddTag p.tags k v }

/-! ## Names (constants of cadvisor.go) -/

def serCPUUsageTotal : String := "cpu_usage_total"
def serCPUUsageSystem : String := "cpu_usage_system"
def serCPUUsageUser : String := "cpu_usage_user"
def serCPUUsagePerCPU : String := "cpu_usage_per_cpu"
def serLoadAverage : String := "load_average"
def serMemoryUsage : String := "memory_usage"
def serMemoryMaxUsage : String := "memory_max_usage"
def serMemoryCache : String := "memory_cache"
def serMemoryRss : String := "memory_rss"
def serMemorySwap : String := "memory_swap"
def serMemoryMappedFile : String := "memory_mapped_file"
def serMemoryWorkingSet : String := "memory_working_set"
def serMemoryFailcnt : String := "memory_failcnt"
def serMemoryFailure : String := "memory_failure"
def serRxBytes : String := "rx_bytes"
def serRxErrors : String := "rx_errors"
def serTxBytes : String := "tx_bytes"
def serTxErrors : String := "tx_errors"
def serFsLimit : String := "fs_limit"
def serFsUsage : String := "fs_usage"
def setHugetlbUsage : String := "hugetlb_usage"
def setHugetlbMaxUsage : String := "hugetlb_max_usage"
def setHugetlbFailcnt : String := "hugetlb_failcnt"
def serPerfStat : String := "perf_stat"
def serReferencedMemory : String := "referenced_memory"
def serResctrlMemoryBandwidthTotal : String := "resctrl_memory_bandwidth_total"
def serResctrlMemoryBandwidthLocal : String := "resctrl_memory_bandwidth_local"
def serResctrlLLCOccupancy : String := "resctrl_llc_occupancy"

def fieldValue : String := "value"
def fieldType : String := "type"
def fieldDevice : String := "device"

def tagMachineName : String := "machine"
def tagContainerName : String := "container_name"

/-- Function `makePoint` of cadvisor.go: a point with the single field `value`. -/
def makePoint (name : String) (tags : StrMap) (value : Value) (ts : Time) : Point :=
  NewPoint name tags [(fieldValue, toSignedIfUnsigned value)] ts

/-- Function `addTagsToPoint` of cadvisor.go: `AddTag` for every entry of the map, in
iteration order. -/
def addTagsToPoint (point : Point) (tags : StrMap) : Point :=
  tags.foldl (fun p kv => p.AddTag kv.1 kv.2) point

/-! ## Container snapshots (cadvisor `info/v1`, `info/v2`): the fields the code reads -/

structure CpuUsage where
  Total : Nat
  PerCpu : List Nat
  User : Nat
  System : Nat
  deriving DecidableEq, Repr

structure CpuStats where
  Usage : CpuUsage
  LoadAverage : Int
  deriving DecidableEq, Repr

structure MemoryStatsMemoryData where
  Pgfault : Nat
  Pgmajfault : Nat
  deriving DecidableEq, Repr

structure MemoryStats where
  Usage : Nat
  MaxUsage : Nat
  Cache : Nat
  RSS : Nat
  Swap : Nat
  MappedFile : Nat
  WorkingSet : Nat
  Failcnt : Nat
  ContainerData : MemoryStatsMemoryData
  HierarchicalData : MemoryStatsMemoryData
  deriving DecidableEq, Repr

structure HugetlbStats where
  Usage : Nat
  MaxUsage : Nat
  Failcnt : Nat
  deriving DecidableEq, Repr

structure InterfaceStats where
  RxBytes : Nat
  RxErrors : Nat
  TxBytes : Nat
  TxErrors : Nat
  deriving DecidableEq, Repr

structure NetworkStats where
  Interfaces : List InterfaceStats
  deriving DecidableEq, Repr

/-- A Go `*uint64` that is not nil: the address of a cell and the number in the cell. -/
structure Uint64Ptr where
  addr : Nat
  val : Nat
  deriving DecidableEq, Repr

/-- Filesystem statistics of cadvisor `info/v2`.  `TotalUsageBytes` is a `*uint64`, nil
or a pointer to the number of bytes. -/
structure FilesystemStats where
  TotalUsageBytes : Option Uint64Ptr
  deriving DecidableEq, Repr

/-- A perf counter sample.  `ScalingRatio` is a float, kept as its `%v` rendering, the
only use the code makes of it. -/
structure PerfStat where
  ScalingRatio : String
  Value : Nat
  Name : String
  Cpu : Int
  deriving DecidableEq, Repr

structure MemoryBandwidthStats where
  TotalBytes : Nat
  LocalBytes : Nat
  deriving DecidableEq, Repr

structure CacheStats where
  LLCOccupancy : Nat
  deriving DecidableEq, Repr

structure ResctrlStats where
  MemoryBandwidth : List MemoryBandwidthStats
  Cache : List CacheStats
  deriving DecidableEq, Repr

/-- One stats sample (`info.ContainerStats`); pointer fields are options. -/
structure ContainerStats where
  Timestamp : Time
  Cpu : Option CpuStats
  Memory : Option MemoryStats
  Hugetlb : Option (List (String × HugetlbStats))
  Network : Option NetworkStats
  Filesystem : Option FilesystemStats
  PerfStats : List PerfStat
  ReferencedMemory : Nat
  Resctrl : ResctrlStats
  deriving DecidableEq, Repr

structure ContainerSpec where
  Aliases : List String
  Image : String
  Labels : StrMap
  HasFilesystem : Bool
  HasHugetlb : Bool
  deriving DecidableEq, Repr

/-- A container snapshot (`info.ContainerInfo`): the spec and the samples, oldest first;
an entry of `Stats` is a pointer and may be nil. -/
structure ContainerInfo where
  Spec : ContainerSpec
  Stats : List (Option ContainerStats)
  deriving DecidableEq, Repr

/-! ## The client and its translators -/

/-- The flush policy held by the client: the method `defaultReadyToFlush` bound by
`newStorage`, or a closure installed by `OverrideReadyToFlush`. -/
inductive ReadyToFlush where
  | defaultReadyToFlush
  | overridden
  deriving DecidableEq, Repr

/-- State of `CAdvisorClient` (the backend handle, org and bucket play no part in
translation and buffering). -/
structure CAdvisorClient where
  machineName : String
  lastWrite : Time
  points : List Point
  bufferDuration : Time
  readyToFlush : ReadyToFlush
  deriving DecidableEq, Repr

/-- The container name both `TagPoints` and `DefaultTags` compute: the first alias if
there is one, the image otherwise. -/
def containerName (cInfo : ContainerInfo) : String :=
  match cInfo.Spec.Aliases with
  | a :: _ => a
  | [] => cInfo.Spec.Image

/-- Method `DefaultTags`: the map with machine name and container name. -/
def CAdvisorClient.DefaultTags (s : CAdvisorClient) (cInfo : ContainerInfo)
    (_stats : ContainerStats) : StrMap :=
  [(tagMachineName, s.machineName), (tagContainerName, containerName cInfo)]

/-- Method `TagPoints`: every point gets the common tags and then the labels of the
container spec. -/
def CAdvisorClient.TagPoints (s : CAdvisorClient) (cInfo : ContainerInfo)
    (_stats : ContainerStats) (points : List Point) : List Point :=
  let commonTags : StrMap :=
    [(tagMachineName, s.machineName), (tagContainerName, containerName cInfo)]
  points.map fun p => addTagsToPoint (addTagsToPoint p commonTags) cInfo.Spec.Labels

/-- Formatting `fmt.Sprintf("%v", i)` of a slice index. -/
def fmtIndex (i : Nat) : String := toString i

/-- Formatting `fmt.Sprintf("%v", i)` of an `int`. -/
def fmtInt (i : Int) : String := toString i

/-- Formatting `%v` of a `*uint64`: `<nil>` for the nil pointer, and otherwise the
address in hexadecimal after `0x`; the number pointed to plays no part. -/
def fmtPointer : Option Uint64Ptr → String
  | none => "<nil>"
  | some p => "0x" ++ String.mk (Nat.toDigits 16 p.addr)

/-- The loop over `stats.Cpu.Usage.PerCpu` of `ContainerStatsToPoints`, from index `i`. -/
def perCpuPoints (defaultTags : StrMap) (ts : Time) : Nat → List Nat → List Point
  | _, [] => []
  | i, v :: rest =>
    addTagsToPoint (makePoint serCPUUsagePerCPU defaultTags (.uint64 v) ts)
        [("instance", fmtIndex i)]
      :: perCpuPoints defaultTags ts (i + 1) rest

/-- Method `ContainerStatsToPoints`.  It panics when `stats.Cpu` or `stats.Network` is
nil and when the interface list is empty (`Interfaces[0]`). -/
def CAdvisorClient.ContainerStatsToPoints (s : CAdvisorClient) (cInfo : ContainerInfo)
    (stats : ContainerStats) : Option (List Point) :=
  let defaultTags := s.DefaultTags cInfo stats
  match stats.Cpu with
  | none => none
  | some cpu =>
    let points : List Point :=
      [ makePoint serCPUUsageTotal defaultTags (.uint64 cpu.Usage.Total) stats.Timestamp,
        makePoint serCPUUsageSystem defaultTags (.uint64 cpu.Usage.System) stats.Timestamp,
        makePoint serCPUUsageUser defaultTags (.uint64 cpu.Usage.User) stats.Timestamp ]
    let points := points ++ perCpuPoints defaultTags stats.Timestamp 0 cpu.Usage.PerCpu
    let points := points ++
      [makePoint serLoadAverage defaultTags (.int32 cpu.LoadAverage) stats.Timestamp]
    match stats.Network with
    | none => none
    | some network =>
      match network.Interfaces with
      | [] => none
      | ifc :: _ =>
        let points := points ++
          [ makePoint serRxBytes defaultTags (.uint64 ifc.RxBytes) stats.Timestamp,
            makePoint serRxErrors defaultTags (.uint64 ifc.RxErrors) stats.Timestamp,
            makePoint serTxBytes defaultTags (.uint64 ifc.TxBytes) stats.Timestamp,
            makePoint serTxErrors defaultTags (.uint64 ifc.TxErrors) stats.Timestamp,
            makePoint serReferencedMemory defaultTags (.uint64 stats.ReferencedMemory)
              stats.Timestamp ]
        some (s.TagPoints cInfo stats points)

/-- Method `MemoryStatsToPoints`.  It panics when `stats.Memory` is nil.  The one map
`memoryFailuresTags` is reassigned between the four failure points; the method does
not call `TagPoints`. -/
def CAdvisorClient.MemoryStatsToPoints (s : CAdvisorClient) (cInfo : ContainerInfo)
    (stats : ContainerStats) : Option (List Point) :=
  let defaultTags := s.DefaultTags cInfo stats
  match stats.Memory with
  | none => none
  | some memory =>
    let ts := stats.Timestamp
    let points : List Point :=
      [ makePoint serMemoryUsage defaultTags (.uint64 memory.Usage) ts,
        makePoint serMemoryMaxUsage defaultTags (.uint64 memory.MaxUsage) ts,
        makePoint serMemoryCache defaultTags (.uint64 memory.Cache) ts,
        makePoint serMemoryRss defaultTags (.uint64 memory.RSS) ts,
        makePoint serMemorySwap defaultTags (.uint64 memory.Swap) ts,
        makePoint serMemoryMappedFile defaultTags (.uint64 memory.MappedFile) ts,
        makePoint serMemoryWorkingSet defaultTags (.uint64 memory.WorkingSet) ts,
        makePoint serMemoryFailcnt defaultTags (.uint64 memory.Failcnt) ts ]
    let memoryFailuresTags : StrMap := [("failure_type", "pgfault"), ("scope", "container")]
    let memoryFailurePoint := addTagsToPoint
      (makePoint serMemoryFailure defaultTags (.uint64 memory.ContainerData.Pgfault) ts)
      memoryFailuresTags
    let points := points ++ [memoryFailurePoint]
    let memoryFailuresTags := mapSet memoryFailuresTags "failure_type" "pgmajfault"
    let memoryFailurePoint := addTagsToPoint
      (makePoint serMemoryFailure defaultTags (.uint64 memory.ContainerData.Pgmajfault) ts)
      memoryFailuresTags
    let points := points ++ [memoryFailurePoint]
    let memoryFailuresTags := mapSet memoryFailuresTags "failure_type" "pgfault"
    let memoryFailuresTags := mapSet memoryFailuresTags "scope" "hierarchical"
    let memoryFailurePoint := addTagsToPoint
      (makePoint serMemoryFailure defaultTags (.uint64 memory.HierarchicalData.Pgfault) ts)
      memoryFailuresTags
    let points := points ++ [memoryFailurePoint]
    let memoryFailuresTags := mapSet memoryFailuresTags "failure_type" "pgmajfault"
    let memoryFailurePoint := addTagsToPoint
      (makePoint serMemoryFailure defaultTags (.uint64 memory.HierarchicalData.Pgmajfault) ts)
      memoryFailuresTags
    some (points ++ [memoryFailurePoint])

/-- The three points `HugetlbStatsToPoints` builds for one page size. -/
def hugetlbPoints (defaultTags : StrMap) (ts : Time) (pageSize : String)
    (hugetlbStat : HugetlbStats) : List Point :=
  let tags : StrMap := [("page_size", pageSize)]
  [ addTagsToPoint (makePoint setHugetlbUsage defaultTags (.uint64 hugetlbStat.Usage) ts) tags,
    addTagsToPoint (makePoint setHugetlbMaxUsage defaultTags (.uint64 hugetlbStat.MaxUsage) ts)
      tags,
    addTagsToPoint (makePoint setHugetlbFailcnt defaultTags (.uint64 hugetlbStat.Failcnt) ts)
      tags ]

/-- Method `HugetlbStatsToPoints`.  Without hugetlb support it returns nil; otherwise it
dereferences `stats.Hugetlb` (panic when nil) and ranges over the map. -/
def CAdvisorClient.HugetlbStatsToPoints (s : CAdvisorClient) (cInfo : ContainerInfo)
    (stats : ContainerStats) : Option (List Point) :=
  if !cInfo.Spec.HasHugetlb then some []
  else
    let defaultTags := s.DefaultTags cInfo stats
    match stats.Hugetlb with
    | none => none
    | some hugeTLB =>
      let points := hugeTLB.flatMap fun e =>
        hugetlbPoints defaultTags stats.Timestamp e.1 e.2
      some (s.TagPoints cInfo stats points)

/-- Method `PerfStatsToPoints`. -/
def CAdvisorClient.PerfStatsToPoints (s : CAdvisorClient) (cInfo : ContainerInfo)
    (stats : ContainerStats) : List Point :=
  let defaultTags := s.DefaultTags cInfo stats
  let points := stats.PerfStats.map fun perfStat =>
    addTagsToPoint (makePoint serPerfStat defaultTags (.uint64 perfStat.Value) stats.Timestamp)
      [ ("cpu", fmtInt perfStat.Cpu),
        ("name", perfStat.Name),
        ("scaling_ratio", perfStat.ScalingRatio) ]
  s.TagPoints cInfo stats points

/-- The first loop of `ResctrlStatsToPoints`, from node `nodeID`. -/
def resctrlBandwidthPoints (defaultTags : StrMap) (ts : Time) :
    Nat → List MemoryBandwidthStats → List Point
  | _, [] => []
  | nodeID, rdtMemoryBandwidth :: rest =>
    let tags : StrMap := [("node_id", fmtIndex nodeID)]
    addTagsToPoint (makePoint serResctrlMemoryBandwidthTotal defaultTags
        (.uint64 rdtMemoryBandwidth.TotalBytes) ts) tags
      :: addTagsToPoint (makePoint serResctrlMemoryBandwidthLocal defaultTags
        (.uint64 rdtMemoryBandwidth.LocalBytes) ts) tags
      :: resctrlBandwidthPoints defaultTags ts (nodeID + 1) rest

/-- The second loop of `ResctrlStatsToPoints`, from node `nodeID`. -/
def resctrlCachePoints (defaultTags : StrMap) (ts : Time) :
    Nat → List CacheStats → List Point
  | _, [] => []
  | nodeID, rdtCache :: rest =>
    addTagsToPoint (makePoint serResctrlLLCOccupancy defaultTags
        (.uint64 rdtCache.LLCOccupancy) ts) [("node_id", fmtIndex nodeID)]
      :: resctrlCachePoints defaultTags ts (nodeID + 1) rest

/-- Method `ResctrlStatsToPoints`. -/
def CAdvisorClient.ResctrlStatsToPoints (s : CAdvisorClient) (cInfo : ContainerInfo)
    (stats : ContainerStats) : List Point :=
  let defaultTags := s.DefaultTags cInfo stats
  let points := resctrlBandwidthPoints defaultTags stats.Timestamp 0 stats.Resctrl.MemoryBandwidth
  let points := points ++ resctrlCachePoints defaultTags stats.Timestamp 0 stats.Resctrl.Cache
  s.TagPoints cInfo stats points

/-- Method `ContainerFilesystemStatsToPoints`: nil without filesystem support or
without filesystem statistics; otherwise the usage point and the limit point, built
with `write.NewPoint` directly.  The field of the usage point is the pointer
`fsStat.TotalUsageBytes` itself, not the number it points to: a value of a type the
library does not know, which it stores as its `%v` rendering. -/
def CAdvisorClient.ContainerFilesystemStatsToPoints (s : CAdvisorClient)
    (cInfo : ContainerInfo) (stats : ContainerStats) : List Point :=
  if !cInfo.Spec.HasFilesystem then []
  else
    match stats.Filesystem with
    | none => []
    | some fsStat =>
      let tagsFsUsage : StrMap := [(fieldType, "usage")]
      let fieldsFsUsage : List (String × Value) :=
        [(fieldValue, .other (fmtPointer fsStat.TotalUsageBytes))]
      let pointFsUsage := NewPoint serFsUsage tagsFsUsage fieldsFsUsage stats.Timestamp
      let tagsFsLimit : StrMap := [(fieldDevice, ""), (fieldType, "limit")]
      let fieldsFsLimit : List (String × Value) := [(fieldValue, .str "")]
      let pointFsLimit := NewPoint serFsLimit tagsFsLimit fieldsFsLimit stats.Timestamp
      s.TagPoints cInfo stats [pointFsUsage, pointFsLimit]

/-! ## The buffer: `AddStats` -/

/-- What one call of `AddStats` reads from its environment: the clock seen by
`time.Since` inside `defaultReadyToFlush`, the clock seen by `time.Now()` at the swap,
the answer of the overriding closure (used when one is installed), and the result of
the blocking write (used when a write is attempted; `none` is success). -/
structure Env where
  sinceNow : Time
  swapNow : Time
  overrideAnswer : Bool
  writeErr : Option String
  deriving DecidableEq, Repr

/-- Method `defaultReadyToFlush`: `time.Since(s.lastWrite) >= s.bufferDuration`, `now`
being the clock `time.Since` reads.  (Both instants are readings of the monotonic
clock of one process; their difference is far inside the range of `time.Duration`,
whose saturation is not modelled.) -/
def CAdvisorClient.defaultReadyToFlush (s : CAdvisorClient) (now : Time) : Bool :=
  decide (now - s.lastWrite ≥ s.bufferDuration)

/-- The call `s.readyToFlush()`. -/
def CAdvisorClient.callReadyToFlush (s : CAdvisorClient) (env : Env) : Bool :=
  match s.readyToFlush with
  | .defaultReadyToFlush => s.defaultReadyToFlush env.sinceNow
  | .overridden => env.overrideAnswer

/-- Method `OverrideReadyToFlush`. -/
def CAdvisorClient.OverrideReadyToFlush (s : CAdvisorClient) : CAdvisorClient :=
  { s with readyToFlush := .overridden }

/-- How a call ends: it returns an error value (`none` is nil) or it panics. -/
inductive Outcome where
  | returned (err : Option String)
  | panicked
  deriving DecidableEq, Repr

/-- Result of one `AddStats` call: the client afterwards, the batch handed to
`WritePoint` (if the write is attempted) and how the call ended. -/
structure AddStatsResult where
  client : CAdvisorClient
  written : Option (List Point)
  outcome : Outcome
  deriving DecidableEq, Repr

/-- Method `AddStats`.  Nil stats return at once.  Otherwise the six translators run in
order, each result being appended to `s.points` before the next one runs (a panic
leaves the earlier appends in place); then the policy is asked, and on a positive
answer the pending points are taken, `s.points` is emptied and `lastWrite` is set.  A
non-empty batch is written; the result of the write is discarded and nil is returned. -/
def CAdvisorClient.AddStats (s : CAdvisorClient) (env : Env) (cInfo : ContainerInfo)
    (stats : Option ContainerStats) : AddStatsResult :=
  match stats with
  | none => { client := s, written := none, outcome := .returned none }
  | some stats =>
    match s.ContainerStatsToPoints cInfo stats with
    | none => { client := s, written := none, outcome := .panicked }
    | some pts =>
      let s := { s with points := s.points ++ pts }
      match s.MemoryStatsToPoints cInfo stats with
      | none => { client := s, written := none, outcome := .panicked }
      | some pts =>
        let s := { s with points := s.points ++ pts }
        match s.HugetlbStatsToPoints cInfo stats with
        | none => { client := s, written := none, outcome := .panicked }
        | some pts =>
          let s := { s with points := s.points ++ pts }
          let s := { s with points := s.points ++ s.PerfStatsToPoints cInfo stats }
          let s := { s with points := s.points ++ s.ResctrlStatsToPoints cInfo stats }
          let s := { s with points := s.points ++ s.ContainerFilesystemStatsToPoints cInfo stats }
          if s.callReadyToFlush env then
            let pointsToFlush := s.points
            let s := { s with points := [], lastWrite := env.swapNow }
            if pointsToFlush.length > 0 then
              { client := s, written := some pointsToFlush, outcome := .returned none }
            else
              { client := s, written := none, outcome := .returned none }
          else
            { client := s, written := none, outcome := .returned none }

/-- The point sequence one sample translates to: the concatenation of the six
translators, when none of them panics. -/
def CAdvisorClient.translate (s : CAdvisorClient) (cInfo : ContainerInfo)
    (stats : ContainerStats) : Option (List Point) :=
  match s.ContainerStatsToPoints cInfo stats, s.MemoryStatsToPoints cInfo stats,
    s.HugetlbStatsToPoints cInfo stats with
  | some a, some b, some c =>
    some (a ++ b ++ c ++ s.PerfStatsToPoints cInfo stats ++ s.ResctrlStatsToPoints cInfo stats
      ++ s.ContainerFilesystemStatsToPoints cInfo stats)
  | _, _, _ => none

/-- One call of a run: its environment and its arguments. -/
structure Call where
  env : Env
  cInfo : ContainerInfo
  stats : Option ContainerStats
  deriving DecidableEq, Repr

/-- The points a call appends to the pending sequence: nothing for nil stats, the whole
translation when it succeeds, and the results of the translators that ran before the
panic otherwise. -/
def CAdvisorClient.appended (s : CAdvisorClient) (c : Call) : List Point :=
  match c.stats with
  | none => []
  | some stats =>
    match s.ContainerStatsToPoints c.cInfo stats with
    | none => []
    | some a =>
      match s.MemoryStatsToPoints c.cInfo stats with
      | none => a
      | some b =>
        match s.HugetlbStatsToPoints c.cInfo stats with
        | none => a ++ b
        | some d =>
          a ++ b ++ d ++ s.PerfStatsToPoints c.cInfo stats
            ++ s.ResctrlStatsToPoints c.cInfo stats
            ++ s.ContainerFilesystemStatsToPoints c.cInfo stats

/-- A run of calls serialised by the lock: the client after the last call and the
batches handed to delivery, oldest first. -/
def CAdvisorClient.run (s : CAdvisorClient) : List Call → CAdvisorClient × List (List Point)
  | [] => (s, [])
  | c :: rest =>
    let r := s.AddStats c.env c.cInfo c.stats
    let out := r.client.run rest
    match r.written with
    | some batch => (out.1, batch :: out.2)
    | none => (out.1, out.2)

/-! ## Construction of the client: `New`, `newStorage` -/

structure CAdvisorClientParams where
  Token : String
  Uri : String
  deriving DecidableEq, Repr

/-- Function `newStorage`.  `hostname` is the result of `os.Hostname()` and `now` the
clock read by `time.Now()`.  The struct literal does not mention `bufferDuration`,
which therefore is the zero duration. -/
def newStorage (_params : CAdvisorClientParams) (hostname : Except String String)
    (now : Time) : Except String CAdvisorClient :=
  match hostname with
  | .error err => .error err
  | .ok hostname =>
    .ok { machineName := hostname, lastWrite := now, points := [], bufferDuration := 0,
          readyToFlush := .defaultReadyToFlush }

/-- Function `New` of cadvisor.go. -/
def New (params : CAdvisorClientParams) (hostname : Except String String) (now : Time) :
    Except String CAdvisorClient :=
  newStorage params hostname now

/-! ## The repositories (internal/repositories/cadvisor_repository.go) -/

/-- Modelled from the spec: the type `models.MetricsList` (package internal/models is
not among the sources), a record with the one field `Metrics`, a pointer to a
sequence of texts; `MetricsList{}` is the value whose `Metrics` is nil. -/
structure MetricsList where
  Metrics : Option (List String)
  deriving DecidableEq, Repr

/-- A row of a query result (`map[string]interface{}`), identified by what
`json.Marshal` returns for it: the text or an error. -/
structure Record where
  marshal : Except String String

/-- What the read path gets from the backend: the error of `queryAPI.Query`, the rows
the iteration yields, and the error `result.Err()` reports after the iteration. -/
structure QueryEnv where
  queryErr : Option String
  rows : List Record
  iterErr : Option String

/-- Method `GetStats` of `CAdvisorClient`. -/
def CAdvisorClient.GetStats (_s : CAdvisorClient) (q : QueryEnv) : Except String (List Record) :=
  match q.queryErr with
  | none =>
    let returnList := q.rows
    match q.iterErr with
    | some err => .error err
    | none => .ok returnList
  | some err => .error err

structure CAdvisorRepositoryParams where
  DatabaseUrl : String
  DatabaseToken : String
  deriving DecidableEq, Repr

/-- The two implementations of the interface `CAdvisorRepository`. -/
inductive CAdvisorRepository where
  | cadvisorRepositoryInfluxDB (cadvisorInfluxClient : CAdvisorClient)
  | cadvisorRepositoryMemory
  deriving DecidableEq, Repr

/-- Function `NewCAdvisorRepository`; `hostname` and `now` are what `influx.New` reads
from the system when it is called. -/
def NewCAdvisorRepository (params : CAdvisorRepositoryParams) (hostname : Except String String)
    (now : Time) : Except String CAdvisorRepository :=
  if params.DatabaseUrl = "" then .ok .cadvisorRepositoryMemory
  else
    match New { Uri := params.DatabaseUrl, Token := params.DatabaseToken } hostname now with
    | .error err => .error err
    | .ok sd => .ok (.cadvisorRepositoryInfluxDB sd)

/-- The loop of `cadvisorRepositoryInfluxDB.GetMetricsList` over the rows: the first row
that cannot be marshalled ends it with the error. -/
def marshalStats : List Record → List String → Except String (List String)
  | [], metrics => .ok metrics
  | stat :: rest, metrics =>
    match stat.marshal with
    | .error err => .error err
    | .ok statByte => marshalStats rest (metrics ++ [statByte])

/-- Method `PostStats` of the two repositories: the repository afterwards, the batch
written to the backend if a write was attempted, and how the call ended. -/
def CAdvisorRepository.PostStats (cr : CAdvisorRepository) (env : Env) (info : ContainerInfo)
    (stat : Option ContainerStats) : CAdvisorRepository × Option (List Point) × Outcome :=
  match cr with
  | .cadvisorRepositoryInfluxDB cadvisorInfluxClient =>
    let r := cadvisorInfluxClient.AddStats env info stat
    match r.outcome with
    | .returned (some err) => (.cadvisorRepositoryInfluxDB r.client, r.written, .returned (some err))
    | .returned none => (.cadvisorRepositoryInfluxDB r.client, r.written, .returned none)
    | .panicked => (.cadvisorRepositoryInfluxDB r.client, r.written, .panicked)
  | .cadvisorRepositoryMemory => (.cadvisorRepositoryMemory, none, .returned none)

/-- Method `GetMetricsList` of the two repositories: the list and the error. -/
def CAdvisorRepository.GetMetricsList (cr : CAdvisorRepository) (q : QueryEnv) :
    MetricsList × Option String :=
  match cr with
  | .cadvisorRepositoryInfluxDB cadvisorInfluxClient =>
    match cadvisorInfluxClient.GetStats q with
    | .error err => ({ Metrics := none }, some err)
    | .ok stats =>
      match marshalStats stats [] with
      | .error err => ({ Metrics := none }, some err)
      | .ok metrics => ({ Metrics := some metrics }, none)
  | .cadvisorRepositoryMemory => ({ Metrics := none }, none)

/-! ## The scrape cycle (internal/services/cadvisor_service.go) -/

/-- Function `latestContainerStats`: the last sample when there is one and it is not
nil. -/
def latestContainerStats (info : ContainerInfo) : Option ContainerStats × Bool :=
  let stats := info.Stats
  if stats.length < 1 then (none, false)
  else
    match stats.getD (stats.length - 1) none with
    | none => (none, false)
    | some latest => (some latest, true)

/-- The interface `repositories.CAdvisorRepository` as the service sees it: two
operations on a repository in some state. -/
structure RepositoryOps (σ : Type) where
  PostStats : σ → ContainerInfo → Option ContainerStats → σ × Outcome
  GetMetricsList : σ → σ × MetricsList × Option String

/-- How the scrape cycle ends: it returns a list and an error value, or it panics. -/
inductive CycleResult where
  | returned (list : MetricsList) (err : Option String)
  | panicked
  deriving DecidableEq, Repr

/-- The loop of `cadvisorService.GetMetricsList` over the container infos (a Go map,
as the list of its entries in iteration order): containers without a latest sample are
skipped, the others are posted, and a post that does not return nil ends the loop. -/
def postLatest {σ : Type} (repo : RepositoryOps σ) : σ → List (String × ContainerInfo) → σ × Outcome
  | st, [] => (st, .returned none)
  | st, (_, info) :: rest =>
    let (stat, ok) := latestContainerStats info
    if !ok then postLatest repo st rest
    else
      let r := repo.PostStats st info stat
      match r.2 with
      | .returned none => postLatest repo r.1 rest
      | .returned (some err) => (r.1, .returned (some err))
      | .panicked => (r.1, .panicked)

/-- Method `cadvisorService.GetMetricsList`; `infos` is the result of the call
`ContainerInfoV2` of the metrics source. -/
def cadvisorService.GetMetricsList {σ : Type} (repo : RepositoryOps σ) (st : σ)
    (infos : Except String (List (String × ContainerInfo))) : σ × CycleResult :=
  match infos with
  | .error err => (st, .returned { Metrics := none } (some err))
  | .ok infos =>
    let r := postLatest repo st infos
    match r.2 with
    | .returned (some err) => (r.1, .returned { Metrics := none } (some err))
    | .panicked => (r.1, .panicked)
    | .returned none =>
      let g := repo.GetMetricsList r.1
      (g.1, .returned g.2.1 g.2.2)

/-! ## Auxiliary definitions for the statements -/

/-- All the points the translators return for one sample, a translator that panics
contributing none. -/
def CAdvisorClient.translatorOutputs (s : CAdvisorClient) (cInfo : ContainerInfo)
    (stats : ContainerStats) : List Point :=
  (s.ContainerStatsToPoints cInfo stats).getD [] ++ (s.MemoryStatsToPoints cInfo stats).getD []
    ++ (s.HugetlbStatsToPoints cInfo stats).getD [] ++ s.PerfStatsToPoints cInfo stats
    ++ s.ResctrlStatsToPoints cInfo stats ++ s.ContainerFilesystemStatsToPoints cInfo stats

/-- The points built through `makePoint`: a point over the default tags, extended by
extra tags whose keys are neither `machine` nor `container_name`, holding an unsigned
64-bit or a signed value. -/
def Made (defaultTags : StrMap) (ts : Time) (p : Point) : Prop :=
  ∃ name v extra, p = addTagsToPoint (makePoint name defaultTags v ts) extra ∧
    tagMachineName ∉ extra.map Prod.fst ∧ tagContainerName ∉ extra.map Prod.fst ∧
    ∃ i, convertField (toSignedIfUnsigned v) = Value.int64 i

/-- What `TagPoints` does to one point. -/
def CAdvisorClient.tagged (s : CAdvisorClient) (cInfo : ContainerInfo) (p : Point) : Point :=
  addTagsToPoint
    (addTagsToPoint p [(tagMachineName, s.machineName), (tagContainerName, containerName cInfo)])
    cInfo.Spec.Labels

/-! ## Sample inputs -/

/-- A client as `newStorage` builds it, on the machine `host`. -/
def sampleClient : CAdvisorClient :=
  { machineName := "host", lastWrite := 0, points := [], bufferDuration := 0,
    readyToFlush := .defaultReadyToFlush }

def sampleMemory : MemoryStats :=
  { Usage := 10, MaxUsage := 20, Cache := 3, RSS := 4, Swap := 5, MappedFile := 6,
    WorkingSet := 7, Failcnt := 8,
    ContainerData := { Pgfault := 1, Pgmajfault := 2 },
    HierarchicalData := { Pgfault := 3, Pgmajfault := 4 } }

/-- A sample with CPU total 100, system 40, user 60, per-core 30 and 70, one network
interface, memory and filesystem statistics, and no hugetlb statistics. -/
def sampleStats : ContainerStats :=
  { Timestamp := 1000
    Cpu := some { Usage := { Total := 100, PerCpu := [30, 70], User := 60, System := 40 },
                  LoadAverage := 5 }
    Memory := some sampleMemory
    Hugetlb := none
    Network := some { Interfaces := [{ RxBytes := 1, RxErrors := 0, TxBytes := 2, TxErrors := 0 }] }
    Filesystem := some { TotalUsageBytes := some { addr := 0xc000012345, val := 512 } }
    PerfStats := []
    ReferencedMemory := 9
    Resctrl := { MemoryBandwidth := [], Cache := [] } }

/-- The container spec with the given labels: alias `web`, filesystem support, no
hugetlb support. -/
def sampleInfo (labels : StrMap) : ContainerInfo :=
  { Spec := { Aliases := ["web"], Image := "nginx", Labels := labels,
              HasFilesystem := true, HasHugetlb := false }
    Stats := [] }

/-- The sample without filesystem statistics (`stats.Filesystem` is nil). -/
def sampleStatsNoFs : ContainerStats := { sampleStats with Filesystem := none }

/-- The sample reporting one huge page size, `2MB`, with usage 1, maximum 2 and 3
failures. -/
def sampleStatsHuge : ContainerStats :=
  { sampleStats with Hugetlb := some [("2MB", { Usage := 1, MaxUsage := 2, Failcnt := 3 })] }

/-- The container spec with the given labels and hugetlb support. -/
def sampleInfoHuge (labels : StrMap) : ContainerInfo :=
  { Spec := { Aliases := ["web"], Image := "nginx", Labels := labels,
              HasFilesystem := true, HasHugetlb := true }
    Stats := [] }

/-- An environment in which the clock reads 5 and the write succeeds. -/
def sampleEnv : Env := { sinceNow := 5, swapNow := 6, overrideAnswer := false, writeErr := none }

/-- What the claims on hugetlb points look at: measurement, `page_size` tag, value. -/
def hugetlbView (p : Point) : String × Option String × Option Value :=
  (p.measurement, p.tag "page_size", p.field fieldValue)

/-- The three views expected for one entry of the hugetlb map. -/
def hugetlbExpected (e : String × HugetlbStats) : List (String × Option String × Option Value) :=
  [ (setHugetlbUsage, some e.1, some (.int64 (wrapSigned 64 e.2.Usage))),
    (setHugetlbMaxUsage, some e.1, some (.int64 (wrapSigned 64 e.2.MaxUsage))),
    (setHugetlbFailcnt, some e.1, some (.int64 (wrapSigned 64 e.2.Failcnt))) ]

/-- The translation of the sample for the unlabelled container `web`. -/
def sampleTranslation : Option (List Point) :=
  sampleClient.translate (sampleInfo []) sampleStats

/-- One point pending from an earlier call. -/
def samplePending : List Point := [makePoint serLoadAverage [] (.int32 1) 0]

/-- A client whose policy has been overridden, with one point pending. -/
def sampleOverridden : CAdvisorClient :=
  { machineName := "host", lastWrite := 0, points := samplePending, bufferDuration := 0,
    readyToFlush := .overridden }

/-- An environment in which the overriding policy answers true and the swap happens
at 6. -/
def sampleEnvTrue : Env := { sinceNow := 5, swapNow := 6, overrideAnswer := true, writeErr := none }

/-- An environment in which the overriding policy answers false. -/
def sampleEnvFalse : Env :=
  { sinceNow := 5, swapNow := 6, overrideAnswer := false, writeErr := none }

/-- A client with the default policy, buffer duration 10 and last write at 0. -/
def sampleBuffered : CAdvisorClient :=
  { machineName := "host", lastWrite := 0, points := [], bufferDuration := 10,
    readyToFlush := .defaultReadyToFlush }

/-- The clock reads 9 in the policy (and 11 at a swap). -/
def sampleEnvAt9 : Env := { sinceNow := 9, swapNow := 11, overrideAnswer := false, writeErr := none }

/-- The clock reads 10 in the policy and 11 at the swap. -/
def sampleEnvAt10 : Env :=
  { sinceNow := 10, swapNow := 11, overrideAnswer := false, writeErr := none }

/-- An empty buffer under an overridden policy. -/
def sampleRunStart : CAdvisorClient :=
  { machineName := "host", lastWrite := 0, points := [], bufferDuration := 0,
    readyToFlush := .overridden }

/-- Three calls on the sample; the policy answers false, true, false. -/
def sampleCalls : List Call :=
  [ { env := sampleEnvFalse, cInfo := sampleInfo [], stats := some sampleStats },
    { env := sampleEnvTrue, cInfo := sampleInfo [], stats := some sampleStats },
    { env := sampleEnvFalse, cInfo := sampleInfo [], stats := some sampleStats } ]

/-- An environment in which the blocking write fails. -/
def sampleEnvWriteFails : Env :=
  { sinceNow := 5, swapNow := 6, overrideAnswer := false, writeErr := some "write failed" }

/-- The sample whose network statistics report no interface. -/
def sampleStatsNoInterface : ContainerStats :=
  { sampleStats with Network := some { Interfaces := [] } }

/-- What the statements on `ContainerStatsToPoints` look at: measurement, `instance`
tag, value. -/
def cpuView (p : Point) : String × Option String × Option Value :=
  (p.measurement, p.tag "instance", p.field fieldValue)

/-- The views expected of `ContainerStatsToPoints` for the CPU statistics `cpu`, the
first interface `ifc` and the referenced memory `refMem`, core `i` being read by
index. -/
def cpuExpected (cpu : CpuStats) (ifc : InterfaceStats) (refMem : Nat) :
    List (String × Option String × Option Value) :=
  [ (serCPUUsageTotal, none, some (.int64 (wrapSigned 64 cpu.Usage.Total))),
    (serCPUUsageSystem, none, some (.int64 (wrapSigned 64 cpu.Usage.System))),
    (serCPUUsageUser, none, some (.int64 (wrapSigned 64 cpu.Usage.User))) ]
  ++ (List.range cpu.Usage.PerCpu.length).map (fun i =>
      (serCPUUsagePerCPU, some (toString i),
        some (.int64 (wrapSigned 64 (cpu.Usage.PerCpu.getD i 0)))))
  ++ [ (serLoadAverage, none, some (.int64 cpu.LoadAverage)),
       (serRxBytes, none, some (.int64 (wrapSigned 64 ifc.RxBytes))),
       (serRxErrors, none, some (.int64 (wrapSigned 64 ifc.RxErrors))),
       (serTxBytes, none, some (.int64 (wrapSigned 64 ifc.TxBytes))),
       (serTxErrors, none, some (.int64 (wrapSigned 64 ifc.TxErrors))),
       (serReferencedMemory, none, some (.int64 (wrapSigned 64 refMem))) ]

/-- What the statements on `MemoryStatsToPoints` look at: measurement, `failure_type`
tag, `scope` tag, value. -/
def memoryView (p : Point) : String × Option String × Option String × Option Value :=
  (p.measurement, p.tag "failure_type", p.tag "scope", p.field fieldValue)

/-- The clock never runs backwards over a run of calls that starts at `t`: each call
reads the clock of the policy not before `t`, the clock of the swap not before that,
and the next call starts not before the swap. -/
def clockMonotone : Time → List Call → Prop
  | _, [] => True
  | t, c :: rest => t ≤ c.env.sinceNow ∧ c.env.sinceNow ≤ c.env.swapNow ∧
      clockMonotone c.env.swapNow rest

/-- Three calls with a clock that does not run backwards: the sample, nil stats, the
sample. -/
def sampleClockedCalls : List Call :=
  [ { env := { sinceNow := 1, swapNow := 2, overrideAnswer := false, writeErr := none },
      cInfo := sampleInfo [], stats := some sampleStats },
    { env := { sinceNow := 3, swapNow := 3, overrideAnswer := false, writeErr := none },
      cInfo := sampleInfo [], stats := none },
    { env := { sinceNow := 4, swapNow := 5, overrideAnswer := false, writeErr := none },
      cInfo := sampleInfo [], stats := some sampleStats } ]

/-- The last sample of a container, when the sample sequence is not empty and its last
element is not nil. -/
def lastSample (info : ContainerInfo) : Option ContainerStats :=
  match info.Stats.getLast? with
  | some (some s) => some s
  | _ => none

/-- The containers of a cycle that have a last sample, each with that sample, in
iteration order. -/
def postable (infos : List (String × ContainerInfo)) : List (ContainerInfo × ContainerStats) :=
  infos.filterMap fun e => (lastSample e.2).map fun s => (e.2, s)

/-- A call the service makes on the repository: a post with its arguments and its
outcome, or a read. -/
inductive RepoCall where
  | post (info : ContainerInfo) (stat : Option ContainerStats) (outcome : Outcome)
  | read
  deriving DecidableEq, Repr

/-- The arguments of a post. -/
def RepoCall.postArgs : RepoCall → Option (ContainerInfo × Option ContainerStats)
  | .post info stat _ => some (info, stat)
  | .read => none

/-- Whether the call is a post that did not return nil. -/
def RepoCall.failed : RepoCall → Bool
  | .post _ _ (.returned none) => false
  | .post _ _ _ => true
  | .read => false

/-- The repository `repo` with a record of the calls made on it, oldest first. -/
def RepositoryOps.logged {σ : Type} (repo : RepositoryOps σ) : RepositoryOps (σ × List RepoCall) :=
  { PostStats := fun st info stat =>
      ((( repo.PostStats st.1 info stat).1,
        st.2 ++ [RepoCall.post info stat (repo.PostStats st.1 info stat).2]),
       (repo.PostStats st.1 info stat).2)
    GetMetricsList := fun st =>
      (((repo.GetMetricsList st.1).1, st.2 ++ [RepoCall.read]), (repo.GetMetricsList st.1).2) }

/-- Posting the given containers one after the other until a post does not return
nil: the repository afterwards, the calls made and the outcome of the last one. -/
def replayPosts {σ : Type} (repo : RepositoryOps σ) :
    σ → List (ContainerInfo × ContainerStats) → σ × List RepoCall × Outcome
  | st, [] => (st, [], .returned none)
  | st, a :: rest =>
    match (repo.PostStats st a.1 (some a.2)).2 with
    | .returned none =>
      ((replayPosts repo (repo.PostStats st a.1 (some a.2)).1 rest).1,
        RepoCall.post a.1 (some a.2) (.returned none)
          :: (replayPosts repo (repo.PostStats st a.1 (some a.2)).1 rest).2.1,
        (replayPosts repo (repo.PostStats st a.1 (some a.2)).1 rest).2.2)
    | o => ((repo.PostStats st a.1 (some a.2)).1, [RepoCall.post a.1 (some a.2) o], o)

/-- A repository whose state counts the posts made: the second post fails with an
error, the others return nil, and a read returns one row. -/
def sampleRepo : RepositoryOps Nat :=
  { PostStats := fun n _ _ =>
      (n + 1, if n = 1 then .returned (some "post failed") else .returned none)
    GetMetricsList := fun n => (n, { Metrics := some ["row"] }, none) }

/-- A repository whose posts all return nil and whose read returns one row. -/
def sampleRepoOk : RepositoryOps Nat :=
  { PostStats := fun n _ _ => (n + 1, .returned none)
    GetMetricsList := fun n => (n, { Metrics := some ["row"] }, none) }

/-- A container `web` with the given sample sequence. -/
def sampleInfoWith (stats : List (Option ContainerStats)) : ContainerInfo :=
  { Spec := { Aliases := ["web"], Image := "nginx", Labels := [],
              HasFilesystem := true, HasHugetlb := false }
    Stats := stats }

/-- Four containers: one with two samples, one without samples, one whose last sample
is nil, one with one sample. -/
def sampleInfos : List (String × ContainerInfo) :=
  [ ("/a", sampleInfoWith [some sampleStatsNoFs, some sampleStats]),
    ("/b", sampleInfoWith []),
    ("/c", sampleInfoWith [some sampleStats, none]),
    ("/d", sampleInfoWith [some sampleStatsNoFs]) ]

/-- A client with the default policy, buffer duration 10, last write at 0 and one point
pending. -/
def sampleBufferedPending : CAdvisorClient :=
  { machineName := "host", lastWrite := 0, points := samplePending, bufferDuration := 10,
    readyToFlush := .defaultReadyToFlush }

/-- The clock reads 20 in the policy and 21 at a swap. -/
def sampleEnvAt20 : Env :=
  { sinceNow := 20, swapNow := 21, overrideAnswer := false, writeErr := none }

/-- The sample without memory statistics (`stats.Memory` is nil). -/
def sampleStatsNoMemory : ContainerStats := { sampleStats with Memory := none }

/-- Two calls with a clock that does not run backwards: the sample without memory
statistics, then the sample. -/
def samplePanicThenOk : List Call :=
  [ { env := { sinceNow := 1, swapNow := 2, overrideAnswer := false, writeErr := none },
      cInfo := sampleInfo [], stats := some sampleStatsNoMemory },
    { env := { sinceNow := 3, swapNow := 4, overrideAnswer := false, writeErr := none },
      cInfo := sampleInfo [], stats := some sampleStats } ]

/-- A repository whose state counts the posts made: the first post fails with an
error, the others return nil, and a read returns one row. -/
def sampleRepoFailFirst : RepositoryOps Nat :=
  { PostStats := fun n _ _ =>
      (n + 1, if n = 0 then .returned (some "post failed") else .returned none)
    GetMetricsList := fun n => (n, { Metrics := some ["row"] }, none) }

/-- The interface as a repository of the code implements it, in an environment that
answers every post with `env` and every read with `q`. -/
def CAdvisorRepository.ops (env : Env) (q : QueryEnv) : RepositoryOps CAdvisorRepository :=
  { PostStats := fun cr info stat =>
      ((cr.PostStats env info stat).1, (cr.PostStats env info stat).2.2)
    GetMetricsList := fun cr => (cr, cr.GetMetricsList q) }

/-- Two containers with one sample each, the sample of the first reporting no network
interface. -/
def sampleInfosNoInterface : List (String × ContainerInfo) :=
  [ ("/a", sampleInfoWith [some sampleStatsNoInterface]),
    ("/d", sampleInfoWith [some sampleStats]) ]

/-! ## Lemmas on tags -/

theorem lookup_AddTag (t : StrMap) (k k0 v : String) :
    (AddTag t k0 v).lookup k = if k = k0 then some v else t.lookup k := by
  induction t with
  | nil =>
    by_cases h : k = k0
    · simp [AddTag, List.lookup, h]
    · have hb : (k == k0) = false := beq_false_of_ne h
      simp [AddTag, List.lookup, h, hb]
  | cons e rest ih =>
    obtain ⟨k1, v1⟩ := e
    by_cases h0 : k0 = k1
    · subst h0
      by_cases h : k = k0
      · simp [AddTag, List.lookup, h]
      · have hb : (k == k0) = false := beq_false_of_ne h
        simp [AddTag, List.lookup, h, hb]
    · by_cases h1 : k = k1
      · subst h1
        have h2 : ¬ k = k0 := fun h => h0 h.symm
        simp [AddTag, List.lookup, h0, h2]
      · have hb : (k == k1) = false := beq_false_of_ne h1
        simp [AddTag, List.lookup, h0, h1, hb, ih]

theorem keys_AddTag (t : StrMap) (k v : String) :
    (AddTag t k v).map Prod.fst =
      if k ∈ t.map Prod.fst then t.map Prod.fst else t.map Prod.fst ++ [k] := by
  induction t with
  | nil => simp [AddTag]
  | cons e rest ih =>
    obtain ⟨k1, v1⟩ := e
    by_cases h : k = k1
    · subst h; simp [AddTag]
    · by_cases hm : k ∈ rest.map Prod.fst
      · simp only [AddTag, h, if_false, List.map_cons, ih, hm, if_true, List.mem_cons, or_true]
      · simp only [AddTag, h, if_false, List.map_cons, ih, hm, List.mem_cons, or_self,
          List.cons_append]

theorem nodupKeys_AddTag (t : StrMap) (k v : String) (h : NodupKeys t) :
    NodupKeys (AddTag t k v) := by
  unfold NodupKeys at *
  rw [keys_AddTag]
  by_cases hm : k ∈ t.map Prod.fst
  · simp only [hm, if_true]; exact h
  · simp only [hm, if_false]
    rw [List.nodup_append]
    refine ⟨h, List.nodup_singleton k, ?_⟩
    intro a ha hb
    rw [List.mem_singleton] at hb
    subst hb
    exact hm ha

theorem addTagsToPoint_nil (p : Point) : addTagsToPoint p [] = p := rfl

theorem addTagsToPoint_cons (p : Point) (e : String × String) (m : StrMap) :
    addTagsToPoint p (e :: m) = addTagsToPoint (p.AddTag e.1 e.2) m := rfl

theorem tag_AddTag (p : Point) (k k0 v : String) :
    (p.AddTag k0 v).tag k = if k = k0 then some v else p.tag k := by
  simp only [Point.tag, Point.AddTag]
  exact lookup_AddTag p.tags k k0 v

/-- The tag `k` after `addTagsToPoint p m`: the value `m` gives to `k`, and the previous
tag when `m` has no entry for `k`. -/
theorem tag_addTagsToPoint (p : Point) (m : StrMap) (hm : NodupKeys m) (k : String) :
    (addTagsToPoint p m).tag k = (m.lookup k).orElse fun _ => p.tag k := by
  induction m generalizing p with
  | nil => simp [addTagsToPoint_nil, List.lookup]
  | cons e rest ih =>
    obtain ⟨k1, v1⟩ := e
    have hn : k1 ∉ rest.map Prod.fst ∧ NodupKeys rest := by
      unfold NodupKeys at hm ⊢
      simpa using hm
    rw [addTagsToPoint_cons, ih _ hn.2, tag_AddTag]
    by_cases h : k = k1
    · subst h
      have hl : rest.lookup k = none := by
        rw [List.lookup_eq_none_iff]
        intro e he
        have hne : k ≠ e.1 := fun hk => hn.1 (hk ▸ List.mem_map_of_mem Prod.fst he)
        simpa using hne
      simp [hl, List.lookup]
    · have hb : (k == k1) = false := by simpa using h
      simp [h, List.lookup, hb]

/-- A key outside `m` keeps its tag through `addTagsToPoint p m`. -/
theorem tag_addTagsToPoint_of_not_mem (p : Point) (m : StrMap) (k : String)
    (hk : k ∉ m.map Prod.fst) : (addTagsToPoint p m).tag k = p.tag k := by
  induction m generalizing p with
  | nil => rfl
  | cons e rest ih =>
    have h1 : ¬ k = e.1 := fun h => hk (by simp [h])
    have h2 : k ∉ rest.map Prod.fst := fun h => hk (by simp only [List.map_cons]; exact List.mem_cons_of_mem _ h)
    rw [addTagsToPoint_cons, ih _ h2, tag_AddTag, if_neg h1]

theorem nodupKeys_addTagsToPoint (p : Point) (m : StrMap) (hp : NodupKeys p.tags) :
    NodupKeys (addTagsToPoint p m).tags := by
  induction m generalizing p with
  | nil => exact hp
  | cons e rest ih =>
    rw [addTagsToPoint_cons]
    exact ih _ (nodupKeys_AddTag p.tags e.1 e.2 hp)

theorem fields_addTagsToPoint (p : Point) (m : StrMap) :
    (addTagsToPoint p m).fields = p.fields := by
  induction m generalizing p with
  | nil => rfl
  | cons e rest ih => rw [addTagsToPoint_cons, ih]; rfl

theorem measurement_addTagsToPoint (p : Point) (m : StrMap) :
    (addTagsToPoint p m).measurement = p.measurement := by
  induction m generalizing p with
  | nil => rfl
  | cons e rest ih => rw [addTagsToPoint_cons, ih]; rfl

/-! ## Shape of the translated points -/

theorem TagPoints_eq_map (s : CAdvisorClient) (cInfo : ContainerInfo) (stats : ContainerStats)
    (points : List Point) : s.TagPoints cInfo stats points = points.map (s.tagged cInfo) := rfl

theorem made_uint64 (dt : StrMap) (ts : Time) (name : String) (n : Nat) (extra : StrMap)
    (h1 : tagMachineName ∉ extra.map Prod.fst) (h2 : tagContainerName ∉ extra.map Prod.fst) :
    Made dt ts (addTagsToPoint (makePoint name dt (.uint64 n) ts) extra) :=
  ⟨name, .uint64 n, extra, rfl, h1, h2, wrapSigned 64 n, rfl⟩

theorem made_int32 (dt : StrMap) (ts : Time) (name : String) (n : Int) :
    Made dt ts (makePoint name dt (.int32 n) ts) :=
  ⟨name, .int32 n, [], rfl, by simp, by simp, n, rfl⟩

theorem made_plain (dt : StrMap) (ts : Time) (name : String) (n : Nat) :
    Made dt ts (makePoint name dt (.uint64 n) ts) :=
  made_uint64 dt ts name n [] (by simp) (by simp)

theorem made_fields {dt : StrMap} {ts : Time} {p : Point} (h : Made dt ts p) :
    ∃ i, p.fields = [(fieldValue, Value.int64 i)] := by
  obtain ⟨name, v, extra, rfl, _, _, i, hi⟩ := h
  refine ⟨i, ?_⟩
  rw [fields_addTagsToPoint]
  simp [makePoint, NewPoint, hi]

theorem made_tag_machine {s : CAdvisorClient} {cInfo : ContainerInfo} {stats : ContainerStats}
    {p : Point} (h : Made (s.DefaultTags cInfo stats) stats.Timestamp p) :
    p.tag tagMachineName = some s.machineName := by
  obtain ⟨name, v, extra, rfl, h1, _, _⟩ := h
  rw [tag_addTagsToPoint_of_not_mem _ _ _ h1]
  rfl

theorem made_tag_container {s : CAdvisorClient} {cInfo : ContainerInfo} {stats : ContainerStats}
    {p : Point} (h : Made (s.DefaultTags cInfo stats) stats.Timestamp p) :
    p.tag tagContainerName = some (containerName cInfo) := by
  obtain ⟨name, v, extra, rfl, _, h2, _⟩ := h
  rw [tag_addTagsToPoint_of_not_mem _ _ _ h2]
  rfl

theorem not_mem_keys_singleton {k k0 : String} (v : String) (h : k ≠ k0) :
    k ∉ List.map Prod.fst ([(k0, v)] : StrMap) := by
  simpa using h

theorem mem_perCpuPoints (dt : StrMap) (ts : Time) (i : Nat) (l : List Nat) (p : Point)
    (hp : p ∈ perCpuPoints dt ts i l) : Made dt ts p := by
  induction l generalizing i with
  | nil => simp [perCpuPoints] at hp
  | cons v rest ih =>
    simp only [perCpuPoints, List.mem_cons] at hp
    rcases hp with rfl | hp
    · exact made_uint64 dt ts _ v _ (not_mem_keys_singleton _ (by decide))
        (not_mem_keys_singleton _ (by decide))
    · exact ih _ hp

theorem mem_resctrlBandwidthPoints (dt : StrMap) (ts : Time) (i : Nat)
    (l : List MemoryBandwidthStats) (p : Point)
    (hp : p ∈ resctrlBandwidthPoints dt ts i l) : Made dt ts p := by
  induction l generalizing i with
  | nil => simp [resctrlBandwidthPoints] at hp
  | cons v rest ih =>
    simp only [resctrlBandwidthPoints, List.mem_cons] at hp
    rcases hp with rfl | rfl | hp
    · exact made_uint64 dt ts _ _ _ (not_mem_keys_singleton _ (by decide))
        (not_mem_keys_singleton _ (by decide))
    · exact made_uint64 dt ts _ _ _ (not_mem_keys_singleton _ (by decide))
        (not_mem_keys_singleton _ (by decide))
    · exact ih _ hp

theorem mem_resctrlCachePoints (dt : StrMap) (ts : Time) (i : Nat)
    (l : List CacheStats) (p : Point)
    (hp : p ∈ resctrlCachePoints dt ts i l) : Made dt ts p := by
  induction l generalizing i with
  | nil => simp [resctrlCachePoints] at hp
  | cons v rest ih =>
    simp only [resctrlCachePoints, List.mem_cons] at hp
    rcases hp with rfl | hp
    · exact made_uint64 dt ts _ _ _ (not_mem_keys_singleton _ (by decide))
        (not_mem_keys_singleton _ (by decide))
    · exact ih _ hp

theorem mem_hugetlbPoints (dt : StrMap) (ts : Time) (pageSize : String) (st : HugetlbStats)
    (p : Point) (hp : p ∈ hugetlbPoints dt ts pageSize st) : Made dt ts p := by
  simp only [hugetlbPoints, List.mem_cons, List.mem_singleton, List.not_mem_nil, or_false] at hp
  rcases hp with rfl | rfl | rfl
  · exact made_uint64 dt ts _ _ _ (not_mem_keys_singleton _ (by decide))
        (not_mem_keys_singleton _ (by decide))
  · exact made_uint64 dt ts _ _ _ (not_mem_keys_singleton _ (by decide))
        (not_mem_keys_singleton _ (by decide))
  · exact made_uint64 dt ts _ _ _ (not_mem_keys_singleton _ (by decide))
        (not_mem_keys_singleton _ (by decide))

theorem mem_ContainerStatsToPoints {s : CAdvisorClient} {cInfo : ContainerInfo}
    {stats : ContainerStats} {pts : List Point} {p : Point}
    (h : s.ContainerStatsToPoints cInfo stats = some pts) (hp : p ∈ pts) :
    ∃ q, Made (s.DefaultTags cInfo stats) stats.Timestamp q ∧ p = s.tagged cInfo q := by
  unfold CAdvisorClient.ContainerStatsToPoints at h
  cases hc : stats.Cpu with
  | none => simp [hc] at h
  | some cpu =>
    cases hn : stats.Network with
    | none => simp [hc, hn] at h
    | some network =>
      cases hi : network.Interfaces with
      | nil => simp [hc, hn, hi] at h
      | cons ifc rest =>
        simp only [hc, hn, hi, Option.some.injEq] at h
        subst h
        rw [TagPoints_eq_map, List.mem_map] at hp
        obtain ⟨q, hq, rfl⟩ := hp
        refine ⟨q, ?_, rfl⟩
        simp only [List.mem_append, List.mem_cons, List.mem_singleton, List.not_mem_nil,
          or_false] at hq
        rcases hq with (((rfl | rfl | rfl) | hq) | rfl) | rfl | rfl | rfl | rfl | rfl
        · exact made_plain _ _ _ _
        · exact made_plain _ _ _ _
        · exact made_plain _ _ _ _
        · exact mem_perCpuPoints _ _ _ _ _ hq
        · exact made_int32 _ _ _ _
        · exact made_plain _ _ _ _
        · exact made_plain _ _ _ _
        · exact made_plain _ _ _ _
        · exact made_plain _ _ _ _
        · exact made_plain _ _ _ _

theorem mem_MemoryStatsToPoints {s : CAdvisorClient} {cInfo : ContainerInfo}
    {stats : ContainerStats} {pts : List Point} {p : Point}
    (h : s.MemoryStatsToPoints cInfo stats = some pts) (hp : p ∈ pts) :
    Made (s.DefaultTags cInfo stats) stats.Timestamp p := by
  unfold CAdvisorClient.MemoryStatsToPoints at h
  cases hm : stats.Memory with
  | none => simp [hm] at h
  | some memory =>
    simp only [hm, Option.some.injEq] at h
    subst h
    simp only [List.mem_append, List.mem_cons, List.mem_singleton, List.not_mem_nil,
      or_false] at hp
    rcases hp with ((((rfl | rfl | rfl | rfl | rfl | rfl | rfl | rfl) | rfl) | rfl) | rfl) | rfl
    · exact made_plain _ _ _ _
    · exact made_plain _ _ _ _
    · exact made_plain _ _ _ _
    · exact made_plain _ _ _ _
    · exact made_plain _ _ _ _
    · exact made_plain _ _ _ _
    · exact made_plain _ _ _ _
    · exact made_plain _ _ _ _
    · exact made_uint64 _ _ _ _ _ (by decide) (by decide)
    · exact made_uint64 _ _ _ _ _ (by decide) (by decide)
    · exact made_uint64 _ _ _ _ _ (by decide) (by decide)
    · exact made_uint64 _ _ _ _ _ (by decide) (by decide)

theorem mem_HugetlbStatsToPoints {s : CAdvisorClient} {cInfo : ContainerInfo}
    {stats : ContainerStats} {pts : List Point} {p : Point}
    (h : s.HugetlbStatsToPoints cInfo stats = some pts) (hp : p ∈ pts) :
    ∃ q, Made (s.DefaultTags cInfo stats) stats.Timestamp q ∧ p = s.tagged cInfo q := by
  unfold CAdvisorClient.HugetlbStatsToPoints at h
  cases hh : cInfo.Spec.HasHugetlb with
  | false =>
    simp only [hh, Bool.not_false, if_true, Option.some.injEq] at h
    subst h
    simp at hp
  | true =>
    cases ht : stats.Hugetlb with
    | none => simp [hh, ht] at h
    | some hugeTLB =>
      simp only [hh, ht, Bool.not_true, Bool.false_eq_true, if_false, Option.some.injEq] at h
      subst h
      rw [TagPoints_eq_map, List.mem_map] at hp
      obtain ⟨q, hq, rfl⟩ := hp
      refine ⟨q, ?_, rfl⟩
      rw [List.mem_flatMap] at hq
      obtain ⟨e, _, hq⟩ := hq
      exact mem_hugetlbPoints _ _ _ _ _ hq

theorem mem_PerfStatsToPoints {s : CAdvisorClient} {cInfo : ContainerInfo}
    {stats : ContainerStats} {p : Point} (hp : p ∈ s.PerfStatsToPoints cInfo stats) :
    ∃ q, Made (s.DefaultTags cInfo stats) stats.Timestamp q ∧ p = s.tagged cInfo q := by
  unfold CAdvisorClient.PerfStatsToPoints at hp
  rw [TagPoints_eq_map, List.mem_map] at hp
  obtain ⟨q, hq, rfl⟩ := hp
  refine ⟨q, ?_, rfl⟩
  rw [List.mem_map] at hq
  obtain ⟨perfStat, _, rfl⟩ := hq
  refine made_uint64 _ _ _ _ _ ?_ ?_
  · simp only [List.map_cons, List.map_nil, List.mem_cons, List.not_mem_nil, or_false]
    decide
  · simp only [List.map_cons, List.map_nil, List.mem_cons, List.not_mem_nil, or_false]
    decide

theorem mem_ResctrlStatsToPoints {s : CAdvisorClient} {cInfo : ContainerInfo}
    {stats : ContainerStats} {p : Point} (hp : p ∈ s.ResctrlStatsToPoints cInfo stats) :
    ∃ q, Made (s.DefaultTags cInfo stats) stats.Timestamp q ∧ p = s.tagged cInfo q := by
  unfold CAdvisorClient.ResctrlStatsToPoints at hp
  rw [TagPoints_eq_map, List.mem_map] at hp
  obtain ⟨q, hq, rfl⟩ := hp
  refine ⟨q, ?_, rfl⟩
  rw [List.mem_append] at hq
  rcases hq with hq | hq
  · exact mem_resctrlBandwidthPoints _ _ _ _ _ hq
  · exact mem_resctrlCachePoints _ _ _ _ _ hq

/-- The two filesystem points before tagging. -/
theorem ContainerFilesystemStatsToPoints_eq (s : CAdvisorClient) (cInfo : ContainerInfo)
    (stats : ContainerStats) (fsStat : FilesystemStats)
    (hf : cInfo.Spec.HasFilesystem = true) (hs : stats.Filesystem = some fsStat) :
    s.ContainerFilesystemStatsToPoints cInfo stats =
      [ s.tagged cInfo (NewPoint serFsUsage [(fieldType, "usage")]
          [(fieldValue, .other (fmtPointer fsStat.TotalUsageBytes))] stats.Timestamp),
        s.tagged cInfo (NewPoint serFsLimit [(fieldDevice, ""), (fieldType, "limit")]
          [(fieldValue, .str "")] stats.Timestamp) ] := by
  simp [CAdvisorClient.ContainerFilesystemStatsToPoints, hf, hs, TagPoints_eq_map]

theorem fields_tagged (s : CAdvisorClient) (cInfo : ContainerInfo) (p : Point) :
    (s.tagged cInfo p).fields = p.fields := by
  simp [CAdvisorClient.tagged, fields_addTagsToPoint]

theorem measurement_tagged (s : CAdvisorClient) (cInfo : ContainerInfo) (p : Point) :
    (s.tagged cInfo p).measurement = p.measurement := by
  simp [CAdvisorClient.tagged, measurement_addTagsToPoint]

theorem nodupKeys_common (a b : String) :
    NodupKeys ([(tagMachineName, a), (tagContainerName, b)] : StrMap) := by
  unfold NodupKeys
  simp only [List.map_cons, List.map_nil, List.nodup_cons, List.mem_singleton, List.not_mem_nil,
    not_false_eq_true, List.nodup_nil, and_true]
  decide

/-- A key that is not a label key: `TagPoints` sets `machine` and `container_name` and
keeps every other tag. -/
theorem tag_tagged_of_not_mem (s : CAdvisorClient) (cInfo : ContainerInfo) (p : Point)
    (k : String) (hk : k ∉ cInfo.Spec.Labels.map Prod.fst) :
    (s.tagged cInfo p).tag k =
      if k = tagMachineName then some s.machineName
      else if k = tagContainerName then some (containerName cInfo) else p.tag k := by
  unfold CAdvisorClient.tagged
  rw [tag_addTagsToPoint_of_not_mem _ _ _ hk, tag_addTagsToPoint _ _ (nodupKeys_common _ _)]
  by_cases h1 : k = tagMachineName
  · subst h1; simp [List.lookup]
  · have hb1 : (k == tagMachineName) = false := beq_false_of_ne h1
    by_cases h2 : k = tagContainerName
    · subst h2; simp [List.lookup, h1, hb1]
    · have hb2 : (k == tagContainerName) = false := beq_false_of_ne h2
      simp [List.lookup, h1, h2, hb1, hb2]

theorem lookup_of_mem {m : StrMap} (hm : NodupKeys m) {k v : String} (h : (k, v) ∈ m) :
    m.lookup k = some v := by
  induction m with
  | nil => simp at h
  | cons e rest ih =>
    obtain ⟨k1, v1⟩ := e
    have hn : k1 ∉ rest.map Prod.fst ∧ NodupKeys rest := by
      unfold NodupKeys at hm ⊢
      simpa using hm
    rw [List.mem_cons] at h
    rcases h with h | h
    · cases h; simp [List.lookup]
    · have hne : k ≠ k1 := fun hk => hn.1 (hk ▸ List.mem_map_of_mem Prod.fst h)
      have hb : (k == k1) = false := beq_false_of_ne hne
      simp [List.lookup, hb, ih hn.2 h]

/-- A label of the container spec is a tag of every point `TagPoints` has treated. -/
theorem tag_tagged_label (s : CAdvisorClient) (cInfo : ContainerInfo) (p : Point)
    (hl : NodupKeys cInfo.Spec.Labels) {k v : String} (h : (k, v) ∈ cInfo.Spec.Labels) :
    (s.tagged cInfo p).tag k = some v := by
  unfold CAdvisorClient.tagged
  rw [tag_addTagsToPoint _ _ hl, lookup_of_mem hl h]
  rfl

/-! ## Tag completeness (C1, C2) -/

/-- Every translator that ends with `TagPoints` puts every label of the container spec
on every point it returns. -/
theorem labels_on_tagged_translators (s : CAdvisorClient) (cInfo : ContainerInfo)
    (stats : ContainerStats) (hl : NodupKeys cInfo.Spec.Labels) (p : Point)
    (hp : p ∈ (s.ContainerStatsToPoints cInfo stats).getD []
      ++ (s.HugetlbStatsToPoints cInfo stats).getD [] ++ s.PerfStatsToPoints cInfo stats
      ++ s.ResctrlStatsToPoints cInfo stats ++ s.ContainerFilesystemStatsToPoints cInfo stats)
    (k v : String) (hkv : (k, v) ∈ cInfo.Spec.Labels) : p.tag k = some v := by
  have key : ∃ q, p = s.tagged cInfo q := by
    simp only [List.mem_append] at hp
    rcases hp with (((hp | hp) | hp) | hp) | hp
    · cases h : s.ContainerStatsToPoints cInfo stats with
      | none => simp [h] at hp
      | some pts =>
        rw [h] at hp
        obtain ⟨q, _, hq⟩ := mem_ContainerStatsToPoints h hp
        exact ⟨q, hq⟩
    · cases h : s.HugetlbStatsToPoints cInfo stats with
      | none => simp [h] at hp
      | some pts =>
        rw [h] at hp
        obtain ⟨q, _, hq⟩ := mem_HugetlbStatsToPoints h hp
        exact ⟨q, hq⟩
    · obtain ⟨q, _, hq⟩ := mem_PerfStatsToPoints hp
      exact ⟨q, hq⟩
    · obtain ⟨q, _, hq⟩ := mem_ResctrlStatsToPoints hp
      exact ⟨q, hq⟩
    · unfold CAdvisorClient.ContainerFilesystemStatsToPoints at hp
      split at hp
      · simp at hp
      · split at hp
        · simp at hp
        · rw [TagPoints_eq_map, List.mem_map] at hp
          obtain ⟨q, _, hq⟩ := hp
          exact ⟨q, hq.symm⟩
  obtain ⟨q, rfl⟩ := key
  exact tag_tagged_label s cInfo q hl hkv

/-- C1 (evaluation at the failing input): for the container labelled `app=web`, the
call of `AddStats` hands over 25 points; the 11 points of `ContainerStatsToPoints`
and the 2 filesystem points carry the tag `app=web`, the 12 points of
`MemoryStatsToPoints` carry no tag `app`. -/
theorem C1_memory_points_lack_labels :
    ((sampleClient.AddStats sampleEnv (sampleInfo [("app", "web")]) (some sampleStats)).written.map
        fun batch => batch.map fun p => (p.measurement, p.tag "app")) =
      some [ ("cpu_usage_total", some "web"), ("cpu_usage_system", some "web"),
        ("cpu_usage_user", some "web"), ("cpu_usage_per_cpu", some "web"),
        ("cpu_usage_per_cpu", some "web"), ("load_average", some "web"),
        ("rx_bytes", some "web"), ("rx_errors", some "web"), ("tx_bytes", some "web"),
        ("tx_errors", some "web"), ("referenced_memory", some "web"),
        ("memory_usage", none), ("memory_max_usage", none), ("memory_cache", none),
        ("memory_rss", none), ("memory_swap", none), ("memory_mapped_file", none),
        ("memory_working_set", none), ("memory_failcnt", none), ("memory_failure", none),
        ("memory_failure", none), ("memory_failure", none), ("memory_failure", none),
        ("fs_usage", some "web"), ("fs_limit", some "web") ] := by
  decide

/-- C2 (counterexample): on the machine `host`, for a container with the label
`machine=spoofed`, all 11 points of `ContainerStatsToPoints` have the tag
`machine=spoofed`, which is not the machine name of the client. -/
theorem C2_label_overrides_machine_tag :
    sampleClient.machineName = "host" ∧
    ((sampleClient.ContainerStatsToPoints (sampleInfo [("machine", "spoofed")]) sampleStats).map
        fun pts => pts.map fun p => p.tag tagMachineName) =
      some (List.replicate 11 (some "spoofed")) ∧
    ¬ (∀ pts, sampleClient.ContainerStatsToPoints (sampleInfo [("machine", "spoofed")])
          sampleStats = some pts →
        ∀ p ∈ pts, p.tag tagMachineName = some sampleClient.machineName) := by
  refine ⟨rfl, by decide, ?_⟩
  intro h
  have h1 := h _ rfl _ (List.mem_cons_self _ _)
  revert h1
  decide

/-- C2 (amended): when no label of the container spec has the key `machine` or
`container_name`, every point returned by any translator has the tag `machine` equal
to the machine name of the client and the tag `container_name` equal to the first
alias, or to the image when there is no alias. -/
theorem C2_identity_tags (s : CAdvisorClient) (cInfo : ContainerInfo) (stats : ContainerStats)
    (hm : tagMachineName ∉ cInfo.Spec.Labels.map Prod.fst)
    (hc : tagContainerName ∉ cInfo.Spec.Labels.map Prod.fst) :
    (∀ p ∈ s.translatorOutputs cInfo stats,
      p.tag tagMachineName = some s.machineName ∧
      p.tag tagContainerName =
        some (match cInfo.Spec.Aliases with
          | a :: _ => a
          | [] => cInfo.Spec.Image)) := by
  intro p hp
  have hname : (match cInfo.Spec.Aliases with
      | a :: _ => a
      | [] => cInfo.Spec.Image) = containerName cInfo := rfl
  rw [hname]
  have tagged_case : ∀ q, Made (s.DefaultTags cInfo stats) stats.Timestamp q →
      (s.tagged cInfo q).tag tagMachineName = some s.machineName ∧
      (s.tagged cInfo q).tag tagContainerName = some (containerName cInfo) := by
    intro q _
    constructor
    · rw [tag_tagged_of_not_mem s cInfo q _ hm]; simp
    · rw [tag_tagged_of_not_mem s cInfo q _ hc]
      have : ¬ tagContainerName = tagMachineName := by decide
      simp [this]
  unfold CAdvisorClient.translatorOutputs at hp
  simp only [List.mem_append] at hp
  rcases hp with ((((hp | hp) | hp) | hp) | hp) | hp
  · cases h : s.ContainerStatsToPoints cInfo stats with
    | none => simp [h] at hp
    | some pts =>
      rw [h] at hp
      obtain ⟨q, hq, rfl⟩ := mem_ContainerStatsToPoints h hp
      exact tagged_case q hq
  · cases h : s.MemoryStatsToPoints cInfo stats with
    | none => simp [h] at hp
    | some pts =>
      rw [h] at hp
      have hq := mem_MemoryStatsToPoints h hp
      exact ⟨made_tag_machine hq, made_tag_container hq⟩
  · cases h : s.HugetlbStatsToPoints cInfo stats with
    | none => simp [h] at hp
    | some pts =>
      rw [h] at hp
      obtain ⟨q, hq, rfl⟩ := mem_HugetlbStatsToPoints h hp
      exact tagged_case q hq
  · obtain ⟨q, hq, rfl⟩ := mem_PerfStatsToPoints hp
    exact tagged_case q hq
  · obtain ⟨q, hq, rfl⟩ := mem_ResctrlStatsToPoints hp
    exact tagged_case q hq
  · unfold CAdvisorClient.ContainerFilesystemStatsToPoints at hp
    split at hp
    · simp at hp
    · split at hp
      · simp at hp
      · rw [TagPoints_eq_map, List.mem_map] at hp
        obtain ⟨q, _, rfl⟩ := hp
        constructor
        · rw [tag_tagged_of_not_mem s cInfo q _ hm]; simp
        · rw [tag_tagged_of_not_mem s cInfo q _ hc]
          have : ¬ tagContainerName = tagMachineName := by decide
          simp [this]

/-- C2 (witness): the container `web` labelled `app=web` on the machine `host`. -/
theorem C2_identity_tags_witness :
    tagMachineName ∉ (sampleInfo [("app", "web")]).Spec.Labels.map Prod.fst ∧
    tagContainerName ∉ (sampleInfo [("app", "web")]).Spec.Labels.map Prod.fst ∧
    (sampleClient.translatorOutputs (sampleInfo [("app", "web")]) sampleStats).length = 25 ∧
    ∀ p ∈ sampleClient.translatorOutputs (sampleInfo [("app", "web")]) sampleStats,
      p.tag tagMachineName = some "host" ∧ p.tag tagContainerName = some "web" :=
  ⟨by decide, by decide, by decide,
    C2_identity_tags sampleClient (sampleInfo [("app", "web")]) sampleStats
      (by decide) (by decide)⟩

/-! ## Optional families (C3, C4) -/

/-- C3 (counterexample): with filesystem support declared, a sample without
filesystem statistics yields no filesystem point; and with the label `type=x` the two
filesystem points are tagged `type=x`, not `usage` and `limit`. -/
theorem C3_filesystem_flag_not_sufficient :
    (sampleInfo []).Spec.HasFilesystem = true ∧
    sampleClient.ContainerFilesystemStatsToPoints (sampleInfo []) sampleStatsNoFs = [] ∧
    (sampleClient.ContainerFilesystemStatsToPoints (sampleInfo [("type", "x")]) sampleStats).map
        (fun p => (p.measurement, p.tag fieldType)) =
      [("fs_usage", some "x"), ("fs_limit", some "x")] := by
  decide

/-- C3 (amended): `ContainerFilesystemStatsToPoints` returns a non-empty sequence
exactly when the spec declares filesystem support and the sample has filesystem
statistics.  The result is then two points, `fs_usage` followed by `fs_limit`, tagged
`type=usage` and `type=limit` when no label has the key `type`.  In every other case
the result is the empty sequence. -/
theorem C3_filesystem_points (s : CAdvisorClient) (cInfo : ContainerInfo)
    (stats : ContainerStats) :
    (s.ContainerFilesystemStatsToPoints cInfo stats ≠ [] ↔
      (cInfo.Spec.HasFilesystem = true ∧ stats.Filesystem ≠ none)) ∧
    (cInfo.Spec.HasFilesystem = true → stats.Filesystem ≠ none →
      ∃ pu pl, s.ContainerFilesystemStatsToPoints cInfo stats = [pu, pl] ∧
        pu.measurement = serFsUsage ∧ pl.measurement = serFsLimit ∧
        (fieldType ∉ cInfo.Spec.Labels.map Prod.fst →
          pu.tag fieldType = some "usage" ∧ pl.tag fieldType = some "limit")) ∧
    ((cInfo.Spec.HasFilesystem = false ∨ stats.Filesystem = none) →
      s.ContainerFilesystemStatsToPoints cInfo stats = []) := by
  have hempty : (cInfo.Spec.HasFilesystem = false ∨ stats.Filesystem = none) →
      s.ContainerFilesystemStatsToPoints cInfo stats = [] := by
    intro h
    unfold CAdvisorClient.ContainerFilesystemStatsToPoints
    rcases h with h | h
    · simp [h]
    · simp [h]
  have hfull : cInfo.Spec.HasFilesystem = true → stats.Filesystem ≠ none →
      ∃ pu pl, s.ContainerFilesystemStatsToPoints cInfo stats = [pu, pl] ∧
        pu.measurement = serFsUsage ∧ pl.measurement = serFsLimit ∧
        (fieldType ∉ cInfo.Spec.Labels.map Prod.fst →
          pu.tag fieldType = some "usage" ∧ pl.tag fieldType = some "limit") := by
    intro hf hs
    obtain ⟨fsStat, hfs⟩ := Option.ne_none_iff_exists'.mp hs
    refine ⟨_, _, ContainerFilesystemStatsToPoints_eq s cInfo stats fsStat hf hfs, ?_, ?_, ?_⟩
    · rw [measurement_tagged]; rfl
    · rw [measurement_tagged]; rfl
    · intro hk
      have h1 : ¬ fieldType = tagMachineName := by decide
      have h2 : ¬ fieldType = tagContainerName := by decide
      constructor
      · rw [tag_tagged_of_not_mem s cInfo _ _ hk, if_neg h1, if_neg h2]; rfl
      · rw [tag_tagged_of_not_mem s cInfo _ _ hk, if_neg h1, if_neg h2]; rfl
  refine ⟨⟨?_, ?_⟩, hfull, hempty⟩
  · intro hne
    by_contra hcon
    apply hne
    apply hempty
    by_cases hf : cInfo.Spec.HasFilesystem = true
    · right
      by_contra hs
      exact hcon ⟨hf, hs⟩
    · left
      simpa using hf
  · rintro ⟨hf, hs⟩
    obtain ⟨pu, pl, heq, _⟩ := hfull hf hs
    rw [heq]
    simp

/-- C3 (witness): the container `web` with filesystem support and the sample with
filesystem statistics. -/
theorem C3_filesystem_points_witness :
    (sampleInfo []).Spec.HasFilesystem = true ∧ sampleStats.Filesystem ≠ none ∧
    ∃ pu pl, sampleClient.ContainerFilesystemStatsToPoints (sampleInfo []) sampleStats = [pu, pl] ∧
      pu.measurement = serFsUsage ∧ pl.measurement = serFsLimit ∧
      (fieldType ∉ (sampleInfo []).Spec.Labels.map Prod.fst →
        pu.tag fieldType = some "usage" ∧ pl.tag fieldType = some "limit") :=
  ⟨rfl, by decide,
    (C3_filesystem_points sampleClient (sampleInfo []) sampleStats).2.1 rfl (by decide)⟩

theorem hugetlbView_tagged (s : CAdvisorClient) (cInfo : ContainerInfo) (dt : StrMap)
    (ts : Time) (name pageSize : String) (n : Nat)
    (hk : "page_size" ∉ cInfo.Spec.Labels.map Prod.fst) :
    hugetlbView (s.tagged cInfo
        (addTagsToPoint (makePoint name dt (.uint64 n) ts) [("page_size", pageSize)])) =
      (name, some pageSize, some (.int64 (wrapSigned 64 n))) := by
  have h1 : ¬ "page_size" = tagMachineName := by decide
  have h2 : ¬ "page_size" = tagContainerName := by decide
  have hnd : NodupKeys ([("page_size", pageSize)] : StrMap) := by
    unfold NodupKeys; simp
  unfold hugetlbView
  rw [measurement_tagged, measurement_addTagsToPoint, tag_tagged_of_not_mem s cInfo _ _ hk,
    if_neg h1, if_neg h2, tag_addTagsToPoint _ _ hnd]
  simp only [Point.field, fields_tagged, fields_addTagsToPoint]
  simp [makePoint, NewPoint, List.lookup, toSignedIfUnsigned, convertField]

theorem hugetlbView_points (s : CAdvisorClient) (cInfo : ContainerInfo) (dt : StrMap)
    (ts : Time) (hk : "page_size" ∉ cInfo.Spec.Labels.map Prod.fst)
    (hugeTLB : List (String × HugetlbStats)) :
    ((hugeTLB.flatMap fun e => hugetlbPoints dt ts e.1 e.2).map
        fun p => hugetlbView (s.tagged cInfo p)) = hugeTLB.flatMap hugetlbExpected := by
  induction hugeTLB with
  | nil => rfl
  | cons e rest ih =>
    rw [List.flatMap_cons, List.flatMap_cons, List.map_append, ih]
    congr 1
    simp only [hugetlbPoints, hugetlbExpected, List.map_cons, List.map_nil,
      hugetlbView_tagged s cInfo dt ts _ _ _ hk]

/-- C4 (counterexample): with hugetlb support and the label `page_size=x`, the three
points of the page size `2MB` are tagged `page_size=x`. -/
theorem C4_label_overrides_page_size :
    (sampleClient.HugetlbStatsToPoints (sampleInfoHuge [("page_size", "x")]) sampleStatsHuge).map
        (fun pts => pts.map (fun p => (p.measurement, p.tag "page_size"))) =
      some [("hugetlb_usage", some "x"), ("hugetlb_max_usage", some "x"),
        ("hugetlb_failcnt", some "x")] := by
  decide

/-- C4 (amended): without hugetlb support `HugetlbStatsToPoints` returns the empty
sequence and does not fail.  With hugetlb support, a sample reporting `n` page sizes
and no label with the key `page_size`, it returns `3 * n` points: for each page size,
in iteration order, `hugetlb_usage`, `hugetlb_max_usage` and `hugetlb_failcnt`, each
tagged with that page size and holding its `Usage`, `MaxUsage` and `Failcnt` as
converted to `int64`. -/
theorem C4_hugetlb_points (s : CAdvisorClient) (cInfo : ContainerInfo) (stats : ContainerStats) :
    (cInfo.Spec.HasHugetlb = false → s.HugetlbStatsToPoints cInfo stats = some []) ∧
    (∀ hugeTLB, cInfo.Spec.HasHugetlb = true → stats.Hugetlb = some hugeTLB →
      "page_size" ∉ cInfo.Spec.Labels.map Prod.fst →
      ∃ pts, s.HugetlbStatsToPoints cInfo stats = some pts ∧
        pts.length = 3 * hugeTLB.length ∧
        pts.map hugetlbView = hugeTLB.flatMap hugetlbExpected) := by
  constructor
  · intro h
    simp [CAdvisorClient.HugetlbStatsToPoints, h]
  · intro hugeTLB hh ht hk
    have hview : ((s.TagPoints cInfo stats
          (hugeTLB.flatMap fun e =>
            hugetlbPoints (s.DefaultTags cInfo stats) stats.Timestamp e.1 e.2)).map hugetlbView) =
        hugeTLB.flatMap hugetlbExpected := by
      rw [TagPoints_eq_map, List.map_map]
      exact hugetlbView_points s cInfo _ _ hk hugeTLB
    refine ⟨_, by simp [CAdvisorClient.HugetlbStatsToPoints, hh, ht], ?_, hview⟩
    have hlen := congrArg List.length hview
    rw [List.length_map] at hlen
    rw [hlen]
    clear hview hlen ht
    induction hugeTLB with
    | nil => rfl
    | cons e rest ih =>
      rw [List.flatMap_cons, List.length_append, ih]
      simp [hugetlbExpected]
      omega

/-- C4 (witness): the sample reporting the page size `2MB` for an unlabelled container
with hugetlb support. -/
theorem C4_hugetlb_points_witness :
    (sampleInfoHuge []).Spec.HasHugetlb = true ∧
    "page_size" ∉ (sampleInfoHuge []).Spec.Labels.map Prod.fst ∧
    ∃ pts, sampleClient.HugetlbStatsToPoints (sampleInfoHuge []) sampleStatsHuge = some pts ∧
      pts.length = 3 * 1 ∧
      pts.map hugetlbView =
        [ ("hugetlb_usage", some "2MB", some (.int64 1)),
          ("hugetlb_max_usage", some "2MB", some (.int64 2)),
          ("hugetlb_failcnt", some "2MB", some (.int64 3)) ] :=
  ⟨rfl, by decide,
    (C4_hugetlb_points sampleClient (sampleInfoHuge []) sampleStatsHuge).2
      [("2MB", { Usage := 1, MaxUsage := 2, Failcnt := 3 })] rfl rfl (by decide)⟩

/-! ## Point model (C5, C6, C7) -/

theorem wrapSigned_eq (w u : Nat) (hu : u < 2 ^ w) :
    wrapSigned w u = if u < 2 ^ (w - 1) then (u : Int) else (u : Int) - (2 : Int) ^ w := by
  unfold wrapSigned
  rw [Nat.mod_eq_of_lt hu]
  push_cast
  rfl

theorem wrapSigned_of_lt (w u : Nat) (hu : u < 2 ^ (w - 1)) :
    wrapSigned w u = (u : Int) := by
  have hlt : u < 2 ^ w :=
    lt_of_lt_of_le hu (Nat.pow_le_pow_right (by decide) (Nat.sub_le w 1))
  rw [wrapSigned_eq w u hlt, if_pos hu]

/-- C5: for an unsigned input `u` of width `w` in 8, 16, 32, 64, the result of
`toSignedIfUnsigned` is the signed value of the same width whose number is `u` when
`u < 2 ^ (w - 1)` and `u - 2 ^ w` otherwise, a number of the signed range of that
width; and an input that is not an unsigned integer is returned unchanged. -/
theorem C5_toSignedIfUnsigned (w u : Nat) (v : Value)
    (hw : w = 8 ∨ w = 16 ∨ w = 32 ∨ w = 64) (hu : u < 2 ^ w) :
    (∃ x, Value.ofUnsigned w u = some x ∧
      some (toSignedIfUnsigned x) =
        Value.ofSigned w (if u < 2 ^ (w - 1) then (u : Int) else (u : Int) - (2 : Int) ^ w)) ∧
    (-(2 : Int) ^ (w - 1) ≤ (if u < 2 ^ (w - 1) then (u : Int) else (u : Int) - (2 : Int) ^ w) ∧
      (if u < 2 ^ (w - 1) then (u : Int) else (u : Int) - (2 : Int) ^ w) < (2 : Int) ^ (w - 1)) ∧
    (v.isUnsigned = false → toSignedIfUnsigned v = v) := by
  refine ⟨?_, ?_, ?_⟩
  · rcases hw with rfl | rfl | rfl | rfl
    · exact ⟨.uint8 u, rfl, by
        simp only [toSignedIfUnsigned, wrapSigned_eq 8 u hu]; rfl⟩
    · exact ⟨.uint16 u, rfl, by
        simp only [toSignedIfUnsigned, wrapSigned_eq 16 u hu]; rfl⟩
    · exact ⟨.uint32 u, rfl, by
        simp only [toSignedIfUnsigned, wrapSigned_eq 32 u hu]; rfl⟩
    · exact ⟨.uint64 u, rfl, by
        simp only [toSignedIfUnsigned, wrapSigned_eq 64 u hu]; rfl⟩
  · have hu2 : ((u : Nat) : Int) < (2 : Int) ^ w := by exact_mod_cast hu
    have hpow : (2 : Int) ^ w = 2 * (2 : Int) ^ (w - 1) := by
      rcases hw with rfl | rfl | rfl | rfl <;> norm_num
    have hpos : (0 : Int) < (2 : Int) ^ (w - 1) := by positivity
    by_cases h : u < 2 ^ (w - 1)
    · have h2 : ((u : Nat) : Int) < (2 : Int) ^ (w - 1) := by exact_mod_cast h
      rw [if_pos h]
      constructor
      · have : (0 : Int) ≤ (u : Int) := Int.ofNat_nonneg u
        linarith
      · exact h2
    · have h2 : (2 : Int) ^ (w - 1) ≤ ((u : Nat) : Int) := by
        have := Nat.le_of_not_lt h
        exact_mod_cast this
      rw [if_neg h]
      constructor
      · linarith
      · linarith
  · intro hv
    cases v <;> first | rfl | simp [Value.isUnsigned] at hv

/-- C5 (witness): the byte 200 becomes the `int8` of value `200 - 256`. -/
theorem C5_toSignedIfUnsigned_witness :
    (200 < 2 ^ 8) ∧ toSignedIfUnsigned (.uint8 200) = .int8 (-56) ∧
    toSignedIfUnsigned (.str "") = .str "" := by
  have h := C5_toSignedIfUnsigned 8 200 (.str "") (Or.inl rfl) (by norm_num)
  refine ⟨by norm_num, ?_, h.2.2 rfl⟩
  obtain ⟨x, hx, hy⟩ := h.1
  have hx2 : x = .uint8 200 := by
    simp [Value.ofUnsigned] at hx
    exact hx.symm
  subst hx2
  have hy2 : (if 200 < 2 ^ (8 - 1) then ((200 : Nat) : Int)
    else ((200 : Nat) : Int) - (2 : Int) ^ 8) = -56 := by norm_num
  rw [hy2] at hy
  simpa [Value.ofSigned] using hy

/-- C6: after `addTagsToPoint p m`, every entry of `m` is a tag of the point, every
tag whose key is not in `m` is as before, and the tag keys are still pairwise
distinct. -/
theorem C6_addTagsToPoint (p : Point) (m : StrMap) (hp : NodupKeys p.tags)
    (hm : NodupKeys m) :
    (∀ k v, (k, v) ∈ m → (addTagsToPoint p m).tag k = some v) ∧
    (∀ k, k ∉ m.map Prod.fst → (addTagsToPoint p m).tag k = p.tag k) ∧
    NodupKeys (addTagsToPoint p m).tags := by
  refine ⟨?_, ?_, nodupKeys_addTagsToPoint p m hp⟩
  · intro k v hkv
    rw [tag_addTagsToPoint p m hm, lookup_of_mem hm hkv]
    rfl
  · intro k hk
    exact tag_addTagsToPoint_of_not_mem p m k hk

/-- C6 (witness): merging `b=new, c=3` into a point tagged `a=1, b=old`. -/
theorem C6_addTagsToPoint_witness :
    NodupKeys (NewPoint "m" [("a", "1"), ("b", "old")] [] 0).tags ∧
    NodupKeys ([("b", "new"), ("c", "3")] : StrMap) ∧
    (addTagsToPoint (NewPoint "m" [("a", "1"), ("b", "old")] [] 0)
      [("b", "new"), ("c", "3")]).tags = [("a", "1"), ("b", "new"), ("c", "3")] ∧
    NodupKeys (addTagsToPoint (NewPoint "m" [("a", "1"), ("b", "old")] [] 0)
      [("b", "new"), ("c", "3")]).tags :=
  ⟨by decide, by decide, by decide,
    (C6_addTagsToPoint (NewPoint "m" [("a", "1"), ("b", "old")] [] 0)
      [("b", "new"), ("c", "3")] (by decide) (by decide)).2.2⟩

/-- C7 (counterexample): the two filesystem points of the sample have the single field
`value`, and neither holds a number: the `fs_limit` point holds the empty string, and
the `fs_usage` point the text of the address of `TotalUsageBytes`. -/
theorem C7_fs_limit_value_not_numeric :
    (sampleClient.ContainerFilesystemStatsToPoints (sampleInfo []) sampleStats).map
        (fun p => (p.measurement, p.fields, (p.field fieldValue).map Value.isNumeric)) =
      [ ("fs_usage", [("value", .str "0xc000012345")], some false),
        ("fs_limit", [("value", .str "")], some false) ] := by
  decide

/-- C7 (amended): every point returned by any translator has exactly one field, under
the key `value`.  For every point other than the two filesystem points the field
holds a signed 64-bit integer, and the field of the `fs_limit` point holds the empty
string. -/
theorem C7_single_value_field (s : CAdvisorClient) (cInfo : ContainerInfo)
    (stats : ContainerStats) :
    (∀ p ∈ (s.ContainerStatsToPoints cInfo stats).getD []
        ++ (s.MemoryStatsToPoints cInfo stats).getD []
        ++ (s.HugetlbStatsToPoints cInfo stats).getD [] ++ s.PerfStatsToPoints cInfo stats
        ++ s.ResctrlStatsToPoints cInfo stats,
      ∃ i, p.fields = [(fieldValue, Value.int64 i)]) ∧
    (∀ p ∈ s.ContainerFilesystemStatsToPoints cInfo stats, ∃ v, p.fields = [(fieldValue, v)]) ∧
    (∀ fsStat, cInfo.Spec.HasFilesystem = true → stats.Filesystem = some fsStat →
      ∃ v, (s.ContainerFilesystemStatsToPoints cInfo stats).map (fun p => p.fields) =
        [[(fieldValue, v)], [(fieldValue, Value.str "")]]) := by
  have hfs : ∀ fsStat, cInfo.Spec.HasFilesystem = true → stats.Filesystem = some fsStat →
      ∃ v, (s.ContainerFilesystemStatsToPoints cInfo stats).map (fun p => p.fields) =
        [[(fieldValue, v)], [(fieldValue, Value.str "")]] := by
    intro fsStat hf hs
    refine ⟨convertField (.other (fmtPointer fsStat.TotalUsageBytes)), ?_⟩
    rw [ContainerFilesystemStatsToPoints_eq s cInfo stats fsStat hf hs]
    simp [fields_tagged, NewPoint, convertField]
  refine ⟨?_, ?_, hfs⟩
  · intro p hp
    have tagged_case : ∀ q, Made (s.DefaultTags cInfo stats) stats.Timestamp q →
        ∃ i, (s.tagged cInfo q).fields = [(fieldValue, Value.int64 i)] := by
      intro q hq
      rw [fields_tagged]
      exact made_fields hq
    simp only [List.mem_append] at hp
    rcases hp with (((hp | hp) | hp) | hp) | hp
    · cases h : s.ContainerStatsToPoints cInfo stats with
      | none => simp [h] at hp
      | some pts =>
        rw [h] at hp
        obtain ⟨q, hq, rfl⟩ := mem_ContainerStatsToPoints h hp
        exact tagged_case q hq
    · cases h : s.MemoryStatsToPoints cInfo stats with
      | none => simp [h] at hp
      | some pts =>
        rw [h] at hp
        exact made_fields (mem_MemoryStatsToPoints h hp)
    · cases h : s.HugetlbStatsToPoints cInfo stats with
      | none => simp [h] at hp
      | some pts =>
        rw [h] at hp
        obtain ⟨q, hq, rfl⟩ := mem_HugetlbStatsToPoints h hp
        exact tagged_case q hq
    · obtain ⟨q, hq, rfl⟩ := mem_PerfStatsToPoints hp
      exact tagged_case q hq
    · obtain ⟨q, hq, rfl⟩ := mem_ResctrlStatsToPoints hp
      exact tagged_case q hq
  · intro p hp
    cases hf : cInfo.Spec.HasFilesystem with
    | false => simp [CAdvisorClient.ContainerFilesystemStatsToPoints, hf] at hp
    | true =>
      cases hs : stats.Filesystem with
      | none => simp [CAdvisorClient.ContainerFilesystemStatsToPoints, hf, hs] at hp
      | some fsStat =>
        obtain ⟨v, hmap⟩ := hfs fsStat hf hs
        have hmem : p.fields ∈ (s.ContainerFilesystemStatsToPoints cInfo stats).map
            (fun p => p.fields) := List.mem_map_of_mem _ hp
        rw [hmap] at hmem
        simp only [List.mem_cons, List.mem_singleton, List.not_mem_nil, or_false] at hmem
        rcases hmem with h | h
        · exact ⟨_, h⟩
        · exact ⟨_, h⟩

/-- C7 (witness): the 23 points of the sample that are not filesystem points. -/
theorem C7_single_value_field_witness :
    ((sampleClient.ContainerStatsToPoints (sampleInfo []) sampleStats).getD []
        ++ (sampleClient.MemoryStatsToPoints (sampleInfo []) sampleStats).getD []
        ++ (sampleClient.HugetlbStatsToPoints (sampleInfo []) sampleStats).getD []
        ++ sampleClient.PerfStatsToPoints (sampleInfo []) sampleStats
        ++ sampleClient.ResctrlStatsToPoints (sampleInfo []) sampleStats).length = 23 ∧
    ∀ p ∈ (sampleClient.ContainerStatsToPoints (sampleInfo []) sampleStats).getD []
        ++ (sampleClient.MemoryStatsToPoints (sampleInfo []) sampleStats).getD []
        ++ (sampleClient.HugetlbStatsToPoints (sampleInfo []) sampleStats).getD []
        ++ sampleClient.PerfStatsToPoints (sampleInfo []) sampleStats
        ++ sampleClient.ResctrlStatsToPoints (sampleInfo []) sampleStats,
      ∃ i, p.fields = [(fieldValue, Value.int64 i)] :=
  ⟨by decide, (C7_single_value_field sampleClient (sampleInfo []) sampleStats).1⟩

/-! ## The buffer (C8, C9, C10) -/

theorem ContainerStatsToPoints_ne_nil {s : CAdvisorClient} {cInfo : ContainerInfo}
    {stats : ContainerStats} {pts : List Point}
    (h : s.ContainerStatsToPoints cInfo stats = some pts) : pts ≠ [] := by
  unfold CAdvisorClient.ContainerStatsToPoints at h
  cases hc : stats.Cpu with
  | none => simp [hc] at h
  | some cpu =>
    cases hn : stats.Network with
    | none => simp [hc, hn] at h
    | some network =>
      cases hi : network.Interfaces with
      | nil => simp [hc, hn, hi] at h
      | cons ifc rest =>
        simp only [hc, hn, hi, Option.some.injEq] at h
        subst h
        simp [TagPoints_eq_map]

/-- The decomposition of a successful translation into the six translator results. -/
theorem translate_eq_some {s : CAdvisorClient} {cInfo : ContainerInfo} {stats : ContainerStats}
    {Q : List Point} (h : s.translate cInfo stats = some Q) :
    ∃ a b c, s.ContainerStatsToPoints cInfo stats = some a ∧
      s.MemoryStatsToPoints cInfo stats = some b ∧ s.HugetlbStatsToPoints cInfo stats = some c ∧
      Q = a ++ b ++ c ++ s.PerfStatsToPoints cInfo stats ++ s.ResctrlStatsToPoints cInfo stats
        ++ s.ContainerFilesystemStatsToPoints cInfo stats := by
  unfold CAdvisorClient.translate at h
  cases ha : s.ContainerStatsToPoints cInfo stats with
  | none => simp [ha] at h
  | some a =>
    cases hb : s.MemoryStatsToPoints cInfo stats with
    | none => simp [ha, hb] at h
    | some b =>
      cases hc : s.HugetlbStatsToPoints cInfo stats with
      | none => simp [ha, hb, hc] at h
      | some c =>
        simp only [ha, hb, hc, Option.some.injEq] at h
        exact ⟨a, b, c, rfl, rfl, rfl, h.symm⟩

theorem translate_ne_nil {s : CAdvisorClient} {cInfo : ContainerInfo} {stats : ContainerStats}
    {Q : List Point} (h : s.translate cInfo stats = some Q) : Q ≠ [] := by
  obtain ⟨a, b, c, ha, _, _, rfl⟩ := translate_eq_some h
  have := ContainerStatsToPoints_ne_nil ha
  simp [this]

/-- One call of `AddStats` whose three fallible translators succeed. -/
theorem AddStats_unfold (s : CAdvisorClient) (env : Env) (cInfo : ContainerInfo)
    (stats : ContainerStats) (a b c : List Point)
    (ha : s.ContainerStatsToPoints cInfo stats = some a)
    (hb : s.MemoryStatsToPoints cInfo stats = some b)
    (hc : s.HugetlbStatsToPoints cInfo stats = some c) :
    s.AddStats env cInfo (some stats) =
      if s.callReadyToFlush env then
        if (s.points ++ a ++ b ++ c ++ s.PerfStatsToPoints cInfo stats
            ++ s.ResctrlStatsToPoints cInfo stats
            ++ s.ContainerFilesystemStatsToPoints cInfo stats).length > 0 then
          { client := { s with points := [], lastWrite := env.swapNow },
            written := some (s.points ++ a ++ b ++ c ++ s.PerfStatsToPoints cInfo stats
              ++ s.ResctrlStatsToPoints cInfo stats
              ++ s.ContainerFilesystemStatsToPoints cInfo stats),
            outcome := .returned none }
        else
          { client := { s with points := [], lastWrite := env.swapNow },
            written := none, outcome := .returned none }
      else
        { client := { s with points := s.points ++ a ++ b ++ c
            ++ s.PerfStatsToPoints cInfo stats ++ s.ResctrlStatsToPoints cInfo stats
            ++ s.ContainerFilesystemStatsToPoints cInfo stats },
          written := none, outcome := .returned none } := by
  have hb2 : ({ s with points := s.points ++ a }).MemoryStatsToPoints cInfo stats = some b := hb
  have hc2 : ({ s with points := s.points ++ a ++ b }).HugetlbStatsToPoints cInfo stats
      = some c := hc
  unfold CAdvisorClient.AddStats
  simp only [ha, hb2, hc2]
  rfl

/-- One call of `AddStats` whose translation succeeds, in closed form. -/
theorem AddStats_of_translate (s : CAdvisorClient) (env : Env) (cInfo : ContainerInfo)
    (stats : ContainerStats) (Q : List Point) (hQ : s.translate cInfo stats = some Q) :
    s.AddStats env cInfo (some stats) =
      if s.callReadyToFlush env then
        { client := { s with points := [], lastWrite := env.swapNow },
          written := some (s.points ++ Q), outcome := .returned none }
      else
        { client := { s with points := s.points ++ Q }, written := none,
          outcome := .returned none } := by
  have hne := translate_ne_nil hQ
  obtain ⟨a, b, c, ha, hb, hc, rfl⟩ := translate_eq_some hQ
  have hlen : (s.points ++ a ++ b ++ c ++ s.PerfStatsToPoints cInfo stats
      ++ s.ResctrlStatsToPoints cInfo stats
      ++ s.ContainerFilesystemStatsToPoints cInfo stats).length > 0 := by
    have h1 := List.length_pos.mpr hne
    simp only [List.length_append] at h1 ⊢
    omega
  rw [AddStats_unfold s env cInfo stats a b c ha hb hc, if_pos hlen]
  simp only [List.append_assoc]

/-- C8: for a call with non-nil stats whose translation yields `Q`, on a buffer with
pending sequence `s.points`: if the policy answers true, the batch handed to delivery
is `s.points ++ Q`, pending becomes empty and `lastWrite` becomes the time of the
swap; if it answers false, nothing is delivered, pending becomes `s.points ++ Q` and
`lastWrite` is unchanged.  Nothing else of the client changes and nil is returned. -/
theorem C8_AddStats_batch (s : CAdvisorClient) (env : Env) (cInfo : ContainerInfo)
    (stats : ContainerStats) (Q : List Point) (hQ : s.translate cInfo stats = some Q) :
    (s.callReadyToFlush env = true →
      s.AddStats env cInfo (some stats) =
        { client := { s with points := [], lastWrite := env.swapNow },
          written := some (s.points ++ Q), outcome := .returned none }) ∧
    (s.callReadyToFlush env = false →
      s.AddStats env cInfo (some stats) =
        { client := { s with points := s.points ++ Q }, written := none,
          outcome := .returned none }) := by
  constructor
  · intro h
    rw [AddStats_of_translate s env cInfo stats Q hQ, if_pos h]
  · intro h
    rw [AddStats_of_translate s env cInfo stats Q hQ, h]
    rfl

/-- C8 (witness): an overridden policy answering true on the sample, with one point
pending. -/
theorem C8_AddStats_batch_witness :
    sampleOverridden.translate (sampleInfo []) sampleStats = sampleTranslation ∧
    sampleOverridden.callReadyToFlush sampleEnvTrue = true ∧
    (sampleOverridden.AddStats sampleEnvTrue (sampleInfo []) (some sampleStats)).written =
      some (samplePending ++ sampleTranslation.getD []) ∧
    (sampleOverridden.AddStats sampleEnvTrue (sampleInfo []) (some sampleStats)).client.points
      = [] ∧
    (sampleOverridden.AddStats sampleEnvTrue (sampleInfo []) (some sampleStats)).client.lastWrite
      = 6 := by
  have h := (C8_AddStats_batch sampleOverridden sampleEnvTrue (sampleInfo []) sampleStats
    (sampleTranslation.getD []) (by decide)).1 (by decide)
  refine ⟨by decide, by decide, ?_, ?_, ?_⟩
  · rw [h]; rfl
  · rw [h]
  · rw [h]; rfl

/-- C9 (amended): with the default policy and buffer duration `D`, a call with non-nil stats
whose translation succeeds, reading the clock at `t`, delivers a batch exactly when
`t - lastWrite ≥ D`.  At `lastWrite + D - e` with `e > 0` nothing is delivered and
`lastWrite` is unchanged; at `lastWrite + D + e` with `e ≥ 0` the pending points and
the points of the call are delivered and `lastWrite` becomes the time of the swap. -/
theorem C9_default_policy_threshold (s : CAdvisorClient) (env : Env) (cInfo : ContainerInfo)
    (stats : ContainerStats) (Q : List Point)
    (hd : s.readyToFlush = .defaultReadyToFlush) (hQ : s.translate cInfo stats = some Q) :
    ((s.AddStats env cInfo (some stats)).written ≠ none ↔
      env.sinceNow - s.lastWrite ≥ s.bufferDuration) ∧
    (∀ e : Int, 0 < e → env.sinceNow = s.lastWrite + s.bufferDuration - e →
      (s.AddStats env cInfo (some stats)).written = none ∧
      (s.AddStats env cInfo (some stats)).client.lastWrite = s.lastWrite ∧
      (s.AddStats env cInfo (some stats)).client.points = s.points ++ Q) ∧
    (∀ e : Int, 0 ≤ e → env.sinceNow = s.lastWrite + s.bufferDuration + e →
      (s.AddStats env cInfo (some stats)).written = some (s.points ++ Q) ∧
      (s.AddStats env cInfo (some stats)).client.lastWrite = env.swapNow ∧
      (s.AddStats env cInfo (some stats)).client.points = []) := by
  have hcall : s.callReadyToFlush env = decide (env.sinceNow - s.lastWrite ≥ s.bufferDuration) := by
    simp only [CAdvisorClient.callReadyToFlush, hd, CAdvisorClient.defaultReadyToFlush]
  have hyes : env.sinceNow - s.lastWrite ≥ s.bufferDuration →
      s.AddStats env cInfo (some stats) =
        { client := { s with points := [], lastWrite := env.swapNow },
          written := some (s.points ++ Q), outcome := .returned none } := by
    intro h
    rw [AddStats_of_translate s env cInfo stats Q hQ, hcall, decide_eq_true h]
    rfl
  have hno : ¬ env.sinceNow - s.lastWrite ≥ s.bufferDuration →
      s.AddStats env cInfo (some stats) =
        { client := { s with points := s.points ++ Q }, written := none,
          outcome := .returned none } := by
    intro h
    rw [AddStats_of_translate s env cInfo stats Q hQ, hcall, decide_eq_false h]
    rfl
  refine ⟨⟨?_, ?_⟩, ?_, ?_⟩
  · intro hw
    by_contra hcon
    rw [hno hcon] at hw
    exact hw rfl
  · intro h
    rw [hyes h]
    simp
  · intro e he ht
    have h : ¬ env.sinceNow - s.lastWrite ≥ s.bufferDuration := by
      rw [ht]; intro hge; linarith
    rw [hno h]
    exact ⟨rfl, rfl, rfl⟩
  · intro e he ht
    have h : env.sinceNow - s.lastWrite ≥ s.bufferDuration := by
      rw [ht]; linarith
    rw [hyes h]
    exact ⟨rfl, rfl, rfl⟩

/-- C9 (witness): buffer duration 10 and last write at 0; the call at 9 keeps the
points, the call at 10 delivers them. -/
theorem C9_default_policy_threshold_witness :
    sampleBuffered.readyToFlush = .defaultReadyToFlush ∧
    ((sampleBuffered.AddStats sampleEnvAt9 (sampleInfo []) (some sampleStats)).written = none ∧
      (sampleBuffered.AddStats sampleEnvAt9 (sampleInfo []) (some sampleStats)).client.lastWrite
        = 0) ∧
    ((sampleBuffered.AddStats sampleEnvAt10 (sampleInfo []) (some sampleStats)).written ≠ none ∧
      (sampleBuffered.AddStats sampleEnvAt10 (sampleInfo []) (some sampleStats)).client.lastWrite
        = 11) := by
  have h9 := (C9_default_policy_threshold sampleBuffered sampleEnvAt9 (sampleInfo []) sampleStats
    (sampleTranslation.getD []) rfl (by decide)).2.1 1 (by decide) (by decide)
  have h10 := C9_default_policy_threshold sampleBuffered sampleEnvAt10 (sampleInfo []) sampleStats
    (sampleTranslation.getD []) rfl (by decide)
  refine ⟨rfl, ⟨h9.1, h9.2.1⟩, ⟨h10.1.mpr (by decide), ?_⟩⟩
  exact (h10.2.2 0 (by decide) (by decide)).2.1

/-- A call in which `MemoryStatsToPoints` panics keeps the points appended before. -/
theorem AddStats_panic_memory (s : CAdvisorClient) (env : Env) (cInfo : ContainerInfo)
    (stats : ContainerStats) (a : List Point)
    (ha : s.ContainerStatsToPoints cInfo stats = some a)
    (hb : s.MemoryStatsToPoints cInfo stats = none) :
    s.AddStats env cInfo (some stats) =
      { client := { s with points := s.points ++ a }, written := none, outcome := .panicked } := by
  have hb2 : ({ s with points := s.points ++ a }).MemoryStatsToPoints cInfo stats = none := hb
  unfold CAdvisorClient.AddStats
  simp only [ha, hb2]

/-- A call in which `HugetlbStatsToPoints` panics keeps the points appended before. -/
theorem AddStats_panic_hugetlb (s : CAdvisorClient) (env : Env) (cInfo : ContainerInfo)
    (stats : ContainerStats) (a b : List Point)
    (ha : s.ContainerStatsToPoints cInfo stats = some a)
    (hb : s.MemoryStatsToPoints cInfo stats = some b)
    (hc : s.HugetlbStatsToPoints cInfo stats = none) :
    s.AddStats env cInfo (some stats) =
      { client := { s with points := s.points ++ a ++ b }, written := none,
        outcome := .panicked } := by
  have hb2 : ({ s with points := s.points ++ a }).MemoryStatsToPoints cInfo stats = some b := hb
  have hc2 : ({ s with points := s.points ++ a ++ b }).HugetlbStatsToPoints cInfo stats
      = none := hc
  unfold CAdvisorClient.AddStats
  simp only [ha, hb2, hc2]

theorem appended_congr (s t : CAdvisorClient) (h : s.machineName = t.machineName) (c : Call) :
    s.appended c = t.appended c := by
  cases s
  cases t
  simp only at h
  subst h
  rfl

/-- What one call does to the points: the batch it hands over followed by the pending
sequence it leaves is the previous pending sequence followed by what it appended. -/
theorem AddStats_conservation (s : CAdvisorClient) (c : Call) :
    ((s.AddStats c.env c.cInfo c.stats).written.getD []
        ++ (s.AddStats c.env c.cInfo c.stats).client.points = s.points ++ s.appended c) ∧
      (s.AddStats c.env c.cInfo c.stats).client.machineName = s.machineName := by
  obtain ⟨env, cInfo, stats⟩ := c
  cases stats with
  | none => simp [CAdvisorClient.AddStats, CAdvisorClient.appended]
  | some stats =>
    cases ha : s.ContainerStatsToPoints cInfo stats with
    | none => simp [CAdvisorClient.AddStats, CAdvisorClient.appended, ha]
    | some a =>
      cases hb : s.MemoryStatsToPoints cInfo stats with
      | none =>
        simp only [AddStats_panic_memory s env cInfo stats a ha hb, CAdvisorClient.appended,
          ha, hb]
        simp
      | some b =>
        cases hc : s.HugetlbStatsToPoints cInfo stats with
        | none =>
          simp only [AddStats_panic_hugetlb s env cInfo stats a b ha hb hc,
            CAdvisorClient.appended, ha, hb, hc]
          simp
        | some d =>
          simp only [AddStats_unfold s env cInfo stats a b d ha hb hc,
            CAdvisorClient.appended, ha, hb, hc]
          by_cases hf : s.callReadyToFlush env = true
          · rw [if_pos hf]
            by_cases hl : (s.points ++ a ++ b ++ d ++ s.PerfStatsToPoints cInfo stats
                ++ s.ResctrlStatsToPoints cInfo stats
                ++ s.ContainerFilesystemStatsToPoints cInfo stats).length > 0
            · rw [if_pos hl]
              simp
            · rw [if_neg hl]
              have h0 : s.points ++ a ++ b ++ d ++ s.PerfStatsToPoints cInfo stats
                  ++ s.ResctrlStatsToPoints cInfo stats
                  ++ s.ContainerFilesystemStatsToPoints cInfo stats = [] :=
                List.length_eq_zero.mp (by omega)
              simp only [List.append_assoc] at h0
              simp [h0]
          · rw [if_neg hf]
            simp

/-- The points of a run: the delivered batches followed by the final pending sequence
are the initial pending sequence followed by everything the calls appended. -/
theorem run_conservation (calls : List Call) (s : CAdvisorClient) :
    (s.run calls).2.flatten ++ (s.run calls).1.points
      = s.points ++ calls.flatMap s.appended := by
  induction calls generalizing s with
  | nil => simp [CAdvisorClient.run]
  | cons c rest ih =>
    obtain ⟨hcons, hname⟩ := AddStats_conservation s c
    have hrest : rest.flatMap (s.AddStats c.env c.cInfo c.stats).client.appended
        = rest.flatMap s.appended := by
      congr 1
      funext x
      exact appended_congr _ _ hname x
    have ih2 := ih (s.AddStats c.env c.cInfo c.stats).client
    rw [hrest] at ih2
    rw [List.flatMap_cons, ← List.append_assoc, ← hcons]
    unfold CAdvisorClient.run
    cases hw : (s.AddStats c.env c.cInfo c.stats).written with
    | none =>
      simp only [hw, Option.getD_none, List.nil_append]
      exact ih2
    | some batch =>
      simp only [hw, Option.getD_some, List.flatten_cons, List.append_assoc]
      rw [ih2]

/-- C10: for a run of `AddStats` calls from an empty buffer, under any policy, the
delivered batches in order followed by the final pending sequence are exactly the
point sequences appended by the calls, in call order; so every point occurs as often
in the delivered batches and the pending sequence together as it was appended. -/
theorem C10_every_point_once (s : CAdvisorClient) (calls : List Call) (h0 : s.points = []) :
    (s.run calls).2.flatten ++ (s.run calls).1.points = calls.flatMap s.appended ∧
    ∀ p, (s.run calls).2.flatten.count p + (s.run calls).1.points.count p
      = (calls.flatMap s.appended).count p := by
  have h := run_conservation calls s
  rw [h0, List.nil_append] at h
  refine ⟨h, fun p => ?_⟩
  rw [← h, List.count_append]

/-- C10 (witness): three calls on the sample under an overridden policy answering
false, true, false: one batch of 50 points is delivered and 25 points stay pending. -/
theorem C10_every_point_once_witness :
    ((sampleRunStart.run sampleCalls).2.map List.length,
        (sampleRunStart.run sampleCalls).1.points.length) = ([50], 25) ∧
    (sampleRunStart.run sampleCalls).2.flatten ++ (sampleRunStart.run sampleCalls).1.points
      = sampleCalls.flatMap sampleRunStart.appended :=
  ⟨by decide, (C10_every_point_once sampleRunStart sampleCalls rfl).1⟩

/-! ## The write path (C11) and the network family (C12) -/

/-- The value `AddStats` returns is nil whenever it returns. -/
theorem AddStats_returns_nil (s : CAdvisorClient) (env : Env) (cInfo : ContainerInfo)
    (stats : Option ContainerStats) :
    (s.AddStats env cInfo stats).outcome = .returned none ∨
      (s.AddStats env cInfo stats).outcome = .panicked := by
  cases stats with
  | none => left; rfl
  | some stats =>
    cases ha : s.ContainerStatsToPoints cInfo stats with
    | none => right; simp [CAdvisorClient.AddStats, ha]
    | some a =>
      cases hb : s.MemoryStatsToPoints cInfo stats with
      | none => right; rw [AddStats_panic_memory s env cInfo stats a ha hb]
      | some b =>
        cases hc : s.HugetlbStatsToPoints cInfo stats with
        | none => right; rw [AddStats_panic_hugetlb s env cInfo stats a b ha hb hc]
        | some d =>
          left
          rw [AddStats_unfold s env cInfo stats a b d ha hb hc]
          split
          · split <;> rfl
          · rfl

/-- C11 (evaluation at the failing input): the call flushes a batch of 25 points, the
blocking write of that batch fails, and both `AddStats` and `PostStats` of the
InfluxDB repository return nil. -/
theorem C11_write_error_discarded :
    sampleEnvWriteFails.writeErr = some "write failed" ∧
    (sampleClient.AddStats sampleEnvWriteFails (sampleInfo []) (some sampleStats)).written.map
      List.length = some 25 ∧
    (sampleClient.AddStats sampleEnvWriteFails (sampleInfo []) (some sampleStats)).outcome
      = .returned none ∧
    ((CAdvisorRepository.cadvisorRepositoryInfluxDB sampleClient).PostStats sampleEnvWriteFails
      (sampleInfo []) (some sampleStats)).2.2 = .returned none := by
  decide

/-- A sample whose interface list is empty makes `ContainerStatsToPoints` panic. -/
theorem ContainerStatsToPoints_no_interface (s : CAdvisorClient) (cInfo : ContainerInfo)
    (stats : ContainerStats) (network : NetworkStats) (hn : stats.Network = some network)
    (hi : network.Interfaces = []) : s.ContainerStatsToPoints cInfo stats = none := by
  unfold CAdvisorClient.ContainerStatsToPoints
  cases hc : stats.Cpu with
  | none => simp
  | some cpu => simp [hn, hi]

/-- C12 (evaluation at the failing input): for the sample whose network statistics
report no interface, `ContainerStatsToPoints` panics (index 0 of an empty list), and so
does the call of `AddStats`, which appends nothing. -/
theorem C12_empty_interface_list_panics :
    sampleStatsNoInterface.Network = some { Interfaces := [] } ∧
    sampleClient.ContainerStatsToPoints (sampleInfo []) sampleStatsNoInterface = none ∧
    (sampleClient.AddStats sampleEnv (sampleInfo []) (some sampleStatsNoInterface)).outcome
      = .panicked ∧
    (sampleClient.AddStats sampleEnv (sampleInfo []) (some sampleStatsNoInterface)).client.points
      = [] := by
  decide

/-! ## The order of the points (C16, C17) -/

theorem cpuView_tagged_plain (s : CAdvisorClient) (cInfo : ContainerInfo) (dt : StrMap)
    (ts : Time) (name : String) (v : Value) (i : Int)
    (hv : convertField (toSignedIfUnsigned v) = .int64 i)
    (hdt : dt.lookup "instance" = none)
    (hk : "instance" ∉ cInfo.Spec.Labels.map Prod.fst) :
    cpuView (s.tagged cInfo (makePoint name dt v ts)) = (name, none, some (.int64 i)) := by
  have h1 : ¬ "instance" = tagMachineName := by decide
  have h2 : ¬ "instance" = tagContainerName := by decide
  unfold cpuView
  rw [measurement_tagged, tag_tagged_of_not_mem s cInfo _ _ hk, if_neg h1, if_neg h2]
  simp only [Point.field, fields_tagged]
  simp [makePoint, NewPoint, List.lookup, hv, Point.tag, hdt]

theorem cpuView_tagged_instance (s : CAdvisorClient) (cInfo : ContainerInfo) (dt : StrMap)
    (ts : Time) (name inst : String) (n : Nat)
    (hk : "instance" ∉ cInfo.Spec.Labels.map Prod.fst) :
    cpuView (s.tagged cInfo
        (addTagsToPoint (makePoint name dt (.uint64 n) ts) [("instance", inst)])) =
      (name, some inst, some (.int64 (wrapSigned 64 n))) := by
  have h1 : ¬ "instance" = tagMachineName := by decide
  have h2 : ¬ "instance" = tagContainerName := by decide
  have hnd : NodupKeys ([("instance", inst)] : StrMap) := by
    unfold NodupKeys; simp
  unfold cpuView
  rw [measurement_tagged, measurement_addTagsToPoint, tag_tagged_of_not_mem s cInfo _ _ hk,
    if_neg h1, if_neg h2, tag_addTagsToPoint _ _ hnd]
  simp only [Point.field, fields_tagged, fields_addTagsToPoint]
  simp [makePoint, NewPoint, List.lookup, toSignedIfUnsigned, convertField]

/-- The views of the per-core points, core `i0 + j` holding the `j`-th entry. -/
theorem cpuView_perCpuPoints (s : CAdvisorClient) (cInfo : ContainerInfo) (dt : StrMap)
    (ts : Time) (hk : "instance" ∉ cInfo.Spec.Labels.map Prod.fst) (l : List Nat) (i0 : Nat) :
    (perCpuPoints dt ts i0 l).map (fun p => cpuView (s.tagged cInfo p)) =
      (List.range l.length).map (fun j =>
        (serCPUUsagePerCPU, some (toString (i0 + j)),
          some (Value.int64 (wrapSigned 64 (l.getD j 0))))) := by
  induction l generalizing i0 with
  | nil => rfl
  | cons v rest ih =>
    rw [List.length_cons, List.range_succ_eq_map, List.map_cons, List.map_map]
    simp only [perCpuPoints, List.map_cons]
    rw [ih (i0 + 1), cpuView_tagged_instance s cInfo dt ts _ _ _ hk]
    congr 1
    apply List.map_congr_left
    intro j _
    have hj : i0 + 1 + j = i0 + (j + 1) := by omega
    simp only [Function.comp, List.getD_cons_succ, hj, Nat.succ_eq_add_one]

/-- C16 (counterexample): for the container labelled `instance=x`, the two per-core
points of the sample are tagged `instance=x`, not `instance=0` and `instance=1`. -/
theorem C16_label_overrides_instance :
    (sampleClient.ContainerStatsToPoints (sampleInfo [("instance", "x")]) sampleStats).map
        (fun pts => (pts.map cpuView).filter (fun v => v.1 = serCPUUsagePerCPU)) =
      some [ ("cpu_usage_per_cpu", some "x", some (.int64 30)),
             ("cpu_usage_per_cpu", some "x", some (.int64 70)) ] := by
  decide

/-- C16 (amended): for a sample with CPU statistics of `k` per-core entries and at
least one network interface, and a container without a label of key `instance`,
`ContainerStatsToPoints` returns `9 + k` points in this order: `cpu_usage_total`,
`cpu_usage_system`, `cpu_usage_user`, for `i = 0 .. k-1` one `cpu_usage_per_cpu` point
tagged `instance=<decimal i>` holding `PerCpu[i]`, then `load_average`, `rx_bytes`,
`rx_errors`, `tx_bytes`, `tx_errors` (of interface 0) and `referenced_memory`; the
unsigned values are stored converted to `int64`. -/
theorem C16_container_points (s : CAdvisorClient) (cInfo : ContainerInfo)
    (stats : ContainerStats) (cpu : CpuStats) (network : NetworkStats) (ifc : InterfaceStats)
    (others : List InterfaceStats) (hc : stats.Cpu = some cpu)
    (hn : stats.Network = some network) (hi : network.Interfaces = ifc :: others)
    (hk : "instance" ∉ cInfo.Spec.Labels.map Prod.fst) :
    ∃ pts, s.ContainerStatsToPoints cInfo stats = some pts ∧
      pts.length = 9 + cpu.Usage.PerCpu.length ∧
      pts.map cpuView = cpuExpected cpu ifc stats.ReferencedMemory := by
  have hdt : (s.DefaultTags cInfo stats).lookup "instance" = none := by
    rfl
  have hview : ∀ pts, s.ContainerStatsToPoints cInfo stats = some pts →
      pts.map cpuView = cpuExpected cpu ifc stats.ReferencedMemory := by
    intro pts hpts
    unfold CAdvisorClient.ContainerStatsToPoints at hpts
    simp only [hc, hn, hi, Option.some.injEq] at hpts
    subst hpts
    rw [TagPoints_eq_map, List.map_map]
    simp only [List.map_append, List.map_cons, List.map_nil, Function.comp_def]
    have hper := cpuView_perCpuPoints s cInfo (s.DefaultTags cInfo stats) stats.Timestamp hk
      cpu.Usage.PerCpu 0
    simp only [Nat.zero_add] at hper
    rw [hper]
    simp only [cpuView_tagged_plain s cInfo _ _ _ (.uint64 _) _ rfl hdt hk,
      cpuView_tagged_plain s cInfo _ _ _ (.int32 _) _ rfl hdt hk]
    unfold cpuExpected
    simp only [List.append_assoc, List.cons_append, List.nil_append]
  have hsome : ∃ pts, s.ContainerStatsToPoints cInfo stats = some pts := by
    unfold CAdvisorClient.ContainerStatsToPoints
    simp only [hc, hn, hi]
    exact ⟨_, rfl⟩
  obtain ⟨pts, hpts⟩ := hsome
  refine ⟨pts, hpts, ?_, hview pts hpts⟩
  have hlen := congrArg List.length (hview pts hpts)
  rw [List.length_map] at hlen
  rw [hlen]
  simp [cpuExpected]
  omega

/-- C16 (witness): the sample with total 100, system 40, user 60 and per-core 30, 70
for the unlabelled container `web`. -/
theorem C16_container_points_witness :
    "instance" ∉ (sampleInfo []).Spec.Labels.map Prod.fst ∧
    ∃ pts, sampleClient.ContainerStatsToPoints (sampleInfo []) sampleStats = some pts ∧
      pts.length = 9 + 2 ∧
      pts.map cpuView =
        [ ("cpu_usage_total", none, some (.int64 100)),
          ("cpu_usage_system", none, some (.int64 40)),
          ("cpu_usage_user", none, some (.int64 60)),
          ("cpu_usage_per_cpu", some "0", some (.int64 30)),
          ("cpu_usage_per_cpu", some "1", some (.int64 70)),
          ("load_average", none, some (.int64 5)),
          ("rx_bytes", none, some (.int64 1)),
          ("rx_errors", none, some (.int64 0)),
          ("tx_bytes", none, some (.int64 2)),
          ("tx_errors", none, some (.int64 0)),
          ("referenced_memory", none, some (.int64 9)) ] :=
  ⟨by decide,
    C16_container_points sampleClient (sampleInfo []) sampleStats
      { Usage := { Total := 100, PerCpu := [30, 70], User := 60, System := 40 },
        LoadAverage := 5 }
      { Interfaces := [{ RxBytes := 1, RxErrors := 0, TxBytes := 2, TxErrors := 0 }] }
      { RxBytes := 1, RxErrors := 0, TxBytes := 2, TxErrors := 0 } [] rfl rfl rfl (by decide)⟩

/-- C17: for a sample with memory statistics, `MemoryStatsToPoints` returns 12 points:
the eight single-value points in the order usage, max usage, cache, RSS, swap, mapped
file, working set, failcnt, without `failure_type` and `scope` tags, followed by four
`memory_failure` points tagged (pgfault, container), (pgmajfault, container),
(pgfault, hierarchical), (pgmajfault, hierarchical), each holding the matching
counter (stored converted to `int64`); the later assignments to the one tag map leave
the tags of the earlier points as they were. -/
theorem C17_memory_points (s : CAdvisorClient) (cInfo : ContainerInfo)
    (stats : ContainerStats) (memory : MemoryStats) (hm : stats.Memory = some memory) :
    ∃ pts, s.MemoryStatsToPoints cInfo stats = some pts ∧ pts.length = 12 ∧
      pts.map memoryView =
        [ (serMemoryUsage, none, none, some (.int64 (wrapSigned 64 memory.Usage))),
          (serMemoryMaxUsage, none, none, some (.int64 (wrapSigned 64 memory.MaxUsage))),
          (serMemoryCache, none, none, some (.int64 (wrapSigned 64 memory.Cache))),
          (serMemoryRss, none, none, some (.int64 (wrapSigned 64 memory.RSS))),
          (serMemorySwap, none, none, some (.int64 (wrapSigned 64 memory.Swap))),
          (serMemoryMappedFile, none, none, some (.int64 (wrapSigned 64 memory.MappedFile))),
          (serMemoryWorkingSet, none, none, some (.int64 (wrapSigned 64 memory.WorkingSet))),
          (serMemoryFailcnt, none, none, some (.int64 (wrapSigned 64 memory.Failcnt))),
          (serMemoryFailure, some "pgfault", some "container",
            some (.int64 (wrapSigned 64 memory.ContainerData.Pgfault))),
          (serMemoryFailure, some "pgmajfault", some "container",
            some (.int64 (wrapSigned 64 memory.ContainerData.Pgmajfault))),
          (serMemoryFailure, some "pgfault", some "hierarchical",
            some (.int64 (wrapSigned 64 memory.HierarchicalData.Pgfault))),
          (serMemoryFailure, some "pgmajfault", some "hierarchical",
            some (.int64 (wrapSigned 64 memory.HierarchicalData.Pgmajfault))) ] := by
  unfold CAdvisorClient.MemoryStatsToPoints
  simp only [hm]
  exact ⟨_, rfl, rfl, rfl⟩

/-- C17 (witness): the memory statistics of the sample. -/
theorem C17_memory_points_witness :
    sampleStats.Memory = some sampleMemory ∧
    ∃ pts, sampleClient.MemoryStatsToPoints (sampleInfo [("app", "web")]) sampleStats
        = some pts ∧ pts.length = 12 ∧
      (pts.map memoryView).drop 8 =
        [ ("memory_failure", some "pgfault", some "container", some (.int64 1)),
          ("memory_failure", some "pgmajfault", some "container", some (.int64 2)),
          ("memory_failure", some "pgfault", some "hierarchical", some (.int64 3)),
          ("memory_failure", some "pgmajfault", some "hierarchical", some (.int64 4)) ] := by
  obtain ⟨pts, h1, h2, h3⟩ := C17_memory_points sampleClient (sampleInfo [("app", "web")])
    sampleStats sampleMemory rfl
  exact ⟨rfl, pts, h1, h2, by rw [h3]; rfl⟩

/-! ## The client of `newStorage` (C18) and the repository without backend (C13) -/

/-- A run from an empty buffer with buffer duration zero and the default policy, the
clock not running backwards and no translator panicking: every call with stats
delivers exactly its own points and the buffer is empty at the end. -/
theorem run_unbuffered (calls : List Call) (s : CAdvisorClient) (t : Time)
    (hp : s.points = []) (hd : s.bufferDuration = 0)
    (hr : s.readyToFlush = .defaultReadyToFlush) (hl : s.lastWrite ≤ t)
    (hclock : clockMonotone t calls)
    (hok : ∀ c ∈ calls, ∀ st, c.stats = some st → s.translate c.cInfo st ≠ none) :
    (s.run calls).1.points = [] ∧
      (s.run calls).2 = calls.filterMap (fun c => c.stats.bind (fun st => s.translate c.cInfo st)) := by
  induction calls generalizing s t with
  | nil => exact ⟨hp, rfl⟩
  | cons c rest ih =>
    obtain ⟨h1, h2, h3⟩ := hclock
    have hokrest : ∀ c ∈ rest, ∀ st, c.stats = some st → s.translate c.cInfo st ≠ none :=
      fun c hc => hok c (List.mem_cons_of_mem _ hc)
    cases hst : c.stats with
    | none =>
      have hadd : s.AddStats c.env c.cInfo none
          = { client := s, written := none, outcome := .returned none } := rfl
      have ihs := ih s c.env.swapNow hp hd hr (by linarith) h3 hokrest
      unfold CAdvisorClient.run
      simp only [hst, hadd, List.filterMap_cons, Option.none_bind]
      exact ihs
    | some st =>
      obtain ⟨Q, hQ⟩ := Option.ne_none_iff_exists'.mp (hok c (List.mem_cons_self _ _) st hst)
      have hcall : s.callReadyToFlush c.env = true := by
        simp only [CAdvisorClient.callReadyToFlush, hr, CAdvisorClient.defaultReadyToFlush, hd,
          decide_eq_true_eq]
        linarith
      have hadd : s.AddStats c.env c.cInfo (some st)
          = { client := { s with points := [], lastWrite := c.env.swapNow },
              written := some Q, outcome := .returned none } := by
        rw [AddStats_of_translate s c.env c.cInfo st Q hQ, if_pos hcall, hp, List.nil_append]
      have ihs : (({ s with points := [], lastWrite := c.env.swapNow }).run rest).1.points = [] ∧
          (({ s with points := [], lastWrite := c.env.swapNow }).run rest).2
            = rest.filterMap (fun c => c.stats.bind (fun st => s.translate c.cInfo st)) :=
        ih { s with points := [], lastWrite := c.env.swapNow } c.env.swapNow rfl hd hr
          (le_refl _) h3 hokrest
      unfold CAdvisorClient.run
      simp only [hst, hadd, List.filterMap_cons, Option.some_bind, hQ]
      exact ⟨ihs.1, by rw [ihs.2]⟩

/-- C18 (amended): the client `New` builds has buffer duration zero and the default policy.  In
every run of calls on it in which the clock does not run backwards and no translator
panics, each call with non-nil stats delivers exactly the points of that call, and the
pending sequence is empty after the run (hence after every call, a run of the first
calls being such a run).  A call with nil stats returns nil and changes nothing. -/
theorem C18_unbuffered_client (params : CAdvisorClientParams) (hostname : String) (now : Time)
    (calls : List Call) (hclock : clockMonotone now calls) :
    ∃ s, New params (.ok hostname) now = .ok s ∧ s.bufferDuration = 0 ∧
      s.readyToFlush = .defaultReadyToFlush ∧ s.points = [] ∧
      ((∀ c ∈ calls, ∀ st, c.stats = some st → s.translate c.cInfo st ≠ none) →
        (s.run calls).1.points = [] ∧
        (s.run calls).2
          = calls.filterMap (fun c => c.stats.bind (fun st => s.translate c.cInfo st))) ∧
      (∀ (env : Env) (cInfo : ContainerInfo),
        s.AddStats env cInfo none = { client := s, written := none, outcome := .returned none }) := by
  refine ⟨_, rfl, rfl, rfl, rfl, ?_, fun _ _ => rfl⟩
  intro hok
  exact run_unbuffered calls _ now rfl rfl rfl (le_refl _) hclock hok

/-- C18 (witness): on the client built at time 0 on the machine `host`, the sample, a
nil sample and the sample again deliver two batches of 25 points each. -/
theorem C18_unbuffered_client_witness :
    clockMonotone 0 sampleClockedCalls ∧
    ∃ s, New { Token := "t", Uri := "http://localhost:8086" } (.ok "host") 0 = .ok s ∧
      s.bufferDuration = 0 ∧ (s.run sampleClockedCalls).1.points = [] ∧
      (s.run sampleClockedCalls).2.map List.length = [25, 25] := by
  have hclock : clockMonotone 0 sampleClockedCalls := by
    simp [clockMonotone, sampleClockedCalls]
  obtain ⟨s, h1, h2, _, _, h5, _⟩ := C18_unbuffered_client
    { Token := "t", Uri := "http://localhost:8086" } "host" 0 sampleClockedCalls hclock
  have hs : s = sampleClient := by
    have : (Except.ok sampleClient : Except String CAdvisorClient) = .ok s := h1
    cases this
    rfl
  subst hs
  have hok : ∀ c ∈ sampleClockedCalls, ∀ st, c.stats = some st →
      sampleClient.translate c.cInfo st ≠ none := by decide
  refine ⟨hclock, sampleClient, h1, h2, (h5 hok).1, ?_⟩
  rw [(h5 hok).2]
  decide

/-- C13: `NewCAdvisorRepository` with an empty `DatabaseUrl` returns the in-memory
repository and no error, whatever the system would answer to `influx.New`.  On that
repository `PostStats` returns nil for every container info and sample, nil ones
included, writes nothing and leaves the repository as it is; `GetMetricsList` returns
the empty metrics list and a nil error, after any number of `PostStats` calls. -/
theorem C13_memory_repository (params : CAdvisorRepositoryParams)
    (hostname : Except String String) (now : Time) (hurl : params.DatabaseUrl = "") :
    NewCAdvisorRepository params hostname now = .ok .cadvisorRepositoryMemory ∧
    (∀ (env : Env) (info : ContainerInfo) (stat : Option ContainerStats),
      CAdvisorRepository.cadvisorRepositoryMemory.PostStats env info stat
        = (.cadvisorRepositoryMemory, none, .returned none)) ∧
    (∀ (calls : List Call) (q : QueryEnv),
      (calls.foldl (fun cr c => (cr.PostStats c.env c.cInfo c.stats).1)
          CAdvisorRepository.cadvisorRepositoryMemory).GetMetricsList q
        = ({ Metrics := none }, none)) := by
  refine ⟨by simp [NewCAdvisorRepository, hurl], fun _ _ _ => rfl, ?_⟩
  intro calls q
  have hfold : calls.foldl (fun cr c => (cr.PostStats c.env c.cInfo c.stats).1)
      CAdvisorRepository.cadvisorRepositoryMemory = .cadvisorRepositoryMemory := by
    induction calls with
    | nil => rfl
    | cons c rest ih => rw [List.foldl_cons]; exact ih
  rw [hfold]
  rfl

/-- C13 (witness): no backend location, and a system whose host name lookup would
fail. -/
theorem C13_memory_repository_witness :
    ({ DatabaseUrl := "", DatabaseToken := "t" } : CAdvisorRepositoryParams).DatabaseUrl = "" ∧
    NewCAdvisorRepository { DatabaseUrl := "", DatabaseToken := "t" } (.error "no host name") 0
      = .ok .cadvisorRepositoryMemory ∧
    (sampleCalls.foldl (fun cr c => (cr.PostStats c.env c.cInfo c.stats).1)
        CAdvisorRepository.cadvisorRepositoryMemory).GetMetricsList
        { queryErr := some "down", rows := [], iterErr := none }
      = ({ Metrics := none }, none) :=
  ⟨rfl,
    (C13_memory_repository { DatabaseUrl := "", DatabaseToken := "t" } (.error "no host name") 0
      rfl).1,
    (C13_memory_repository { DatabaseUrl := "", DatabaseToken := "t" } (.error "no host name") 0
      rfl).2.2 sampleCalls { queryErr := some "down", rows := [], iterErr := none }⟩

/-! ## The scrape cycle (C14, C15) -/

theorem latestContainerStats_eq (info : ContainerInfo) :
    latestContainerStats info =
      match lastSample info with
      | some s => (some s, true)
      | none => (none, false) := by
  unfold latestContainerStats lastSample
  cases hs : info.Stats with
  | nil => rfl
  | cons x rest =>
    have hlen : ¬ (x :: rest).length < 1 := by simp
    simp only [hlen, if_false]
    have hget : (x :: rest).getD ((x :: rest).length - 1) none
        = ((x :: rest).getLast?).getD none := by
      rw [List.getLast?_eq_getElem?, List.getD_eq_getElem?_getD]
    rw [hget]
    cases (x :: rest).getLast? with
    | none => rfl
    | some y =>
      cases y with
      | none => rfl
      | some z => rfl

theorem postable_cons_none (e : String × ContainerInfo) (rest : List (String × ContainerInfo))
    (h : lastSample e.2 = none) : postable (e :: rest) = postable rest := by
  simp [postable, List.filterMap_cons, h]

theorem postable_cons_some (e : String × ContainerInfo) (rest : List (String × ContainerInfo))
    (s : ContainerStats) (h : lastSample e.2 = some s) :
    postable (e :: rest) = (e.2, s) :: postable rest := by
  simp [postable, List.filterMap_cons, h]

/-- The loop of the cycle posts the postable containers in order. -/
theorem postLatest_eq_replay {σ : Type} (repo : RepositoryOps σ)
    (infos : List (String × ContainerInfo)) (st : σ) :
    postLatest repo st infos =
      ((replayPosts repo st (postable infos)).1, (replayPosts repo st (postable infos)).2.2) := by
  induction infos generalizing st with
  | nil => rfl
  | cons e rest ih =>
    obtain ⟨name, info⟩ := e
    unfold postLatest
    rw [latestContainerStats_eq]
    cases hl : lastSample info with
    | none =>
      simp only [Bool.not_false, if_true]
      rw [ih, postable_cons_none (name, info) rest hl]
    | some s =>
      simp only [Bool.not_true, Bool.false_eq_true, if_false]
      rw [postable_cons_some (name, info) rest s hl]
      unfold replayPosts
      cases ho : (repo.PostStats st info (some s)).2 with
      | panicked => rfl
      | returned err =>
        cases err with
        | none => simp only [ih]
        | some err => rfl

theorem logged_PostStats {σ : Type} (repo : RepositoryOps σ) (st : σ) (log : List RepoCall)
    (info : ContainerInfo) (stat : Option ContainerStats) :
    repo.logged.PostStats (st, log) info stat =
      (((repo.PostStats st info stat).1,
          log ++ [RepoCall.post info stat (repo.PostStats st info stat).2]),
        (repo.PostStats st info stat).2) := rfl

theorem logged_GetMetricsList {σ : Type} (repo : RepositoryOps σ) (st : σ)
    (log : List RepoCall) :
    repo.logged.GetMetricsList (st, log) =
      (((repo.GetMetricsList st).1, log ++ [RepoCall.read]), (repo.GetMetricsList st).2) := rfl

/-- The same loop on the repository with a record: the record grows by the calls of
the replay. -/
theorem postLatest_logged {σ : Type} (repo : RepositoryOps σ)
    (infos : List (String × ContainerInfo)) (st : σ) (log : List RepoCall) :
    postLatest repo.logged (st, log) infos =
      (((replayPosts repo st (postable infos)).1,
          log ++ (replayPosts repo st (postable infos)).2.1),
        (replayPosts repo st (postable infos)).2.2) := by
  induction infos generalizing st log with
  | nil => simp [postLatest, postable, replayPosts]
  | cons e rest ih =>
    obtain ⟨name, info⟩ := e
    unfold postLatest
    rw [latestContainerStats_eq]
    cases hl : lastSample info with
    | none =>
      simp only [Bool.not_false, if_true]
      rw [ih, postable_cons_none (name, info) rest hl]
    | some s =>
      simp only [Bool.not_true, Bool.false_eq_true, if_false]
      rw [postable_cons_some (name, info) rest s hl]
      unfold replayPosts
      simp only [logged_PostStats]
      cases ho : (repo.PostStats st info (some s)).2 with
      | panicked => rfl
      | returned err =>
        cases err with
        | none => simp only [ih, List.append_assoc, List.singleton_append]
        | some err => rfl

theorem replayPosts_cons_ok {σ : Type} (repo : RepositoryOps σ) (st : σ)
    (a : ContainerInfo × ContainerStats) (rest : List (ContainerInfo × ContainerStats))
    (h : (repo.PostStats st a.1 (some a.2)).2 = .returned none) :
    replayPosts repo st (a :: rest) =
      ((replayPosts repo (repo.PostStats st a.1 (some a.2)).1 rest).1,
        RepoCall.post a.1 (some a.2) (.returned none)
          :: (replayPosts repo (repo.PostStats st a.1 (some a.2)).1 rest).2.1,
        (replayPosts repo (repo.PostStats st a.1 (some a.2)).1 rest).2.2) := by
  rw [replayPosts]
  simp only [h]

theorem replayPosts_cons_fail {σ : Type} (repo : RepositoryOps σ) (st : σ)
    (a : ContainerInfo × ContainerStats) (rest : List (ContainerInfo × ContainerStats))
    (h : (repo.PostStats st a.1 (some a.2)).2 ≠ .returned none) :
    replayPosts repo st (a :: rest) =
      ((repo.PostStats st a.1 (some a.2)).1,
        [RepoCall.post a.1 (some a.2) (repo.PostStats st a.1 (some a.2)).2],
        (repo.PostStats st a.1 (some a.2)).2) := by
  rw [replayPosts]
  cases ho : (repo.PostStats st a.1 (some a.2)).2 with
  | panicked => rfl
  | returned err =>
    cases err with
    | none => exact absurd ho h
    | some err => rfl

/-- The posts of a replay are made on the first containers of the list, in order, each
with its sample. -/
theorem replayPosts_args_prefix {σ : Type} (repo : RepositoryOps σ)
    (l : List (ContainerInfo × ContainerStats)) (st : σ) :
    (replayPosts repo st l).2.1.filterMap RepoCall.postArgs
      <+: l.map (fun a => (a.1, some a.2)) := by
  induction l generalizing st with
  | nil => simp [replayPosts]
  | cons a rest ih =>
    by_cases h : (repo.PostStats st a.1 (some a.2)).2 = .returned none
    · rw [replayPosts_cons_ok repo st a rest h]
      simp only [List.filterMap_cons, RepoCall.postArgs, List.map_cons]
      exact (List.prefix_cons_inj _).mpr (ih _)
    · rw [replayPosts_cons_fail repo st a rest h]
      simp only [List.filterMap_cons, RepoCall.postArgs, List.filterMap_nil, List.map_cons]
      exact (List.prefix_cons_inj _).mpr (List.nil_prefix)

/-- A replay that ends with nil has posted every container of the list. -/
theorem replayPosts_ok {σ : Type} (repo : RepositoryOps σ)
    (l : List (ContainerInfo × ContainerStats)) (st : σ)
    (h : (replayPosts repo st l).2.2 = .returned none) :
    (replayPosts repo st l).2.1
      = l.map (fun a => RepoCall.post a.1 (some a.2) (.returned none)) := by
  induction l generalizing st with
  | nil => rfl
  | cons a rest ih =>
    by_cases ho : (repo.PostStats st a.1 (some a.2)).2 = .returned none
    · rw [replayPosts_cons_ok repo st a rest ho] at h ⊢
      simp only [List.map_cons]
      rw [ih _ h]
    · rw [replayPosts_cons_fail repo st a rest ho] at h
      exact absurd h ho

/-- A post of a replay that did not return nil is its last call and decides its
outcome. -/
theorem replayPosts_failed_last {σ : Type} (repo : RepositoryOps σ)
    (l : List (ContainerInfo × ContainerStats)) (st : σ) (pre suf : List RepoCall)
    (info : ContainerInfo) (stat : Option ContainerStats) (o : Outcome)
    (hlog : (replayPosts repo st l).2.1 = pre ++ RepoCall.post info stat o :: suf)
    (ho : o ≠ .returned none) :
    suf = [] ∧ (replayPosts repo st l).2.2 = o := by
  induction l generalizing st pre with
  | nil =>
    simp [replayPosts] at hlog
  | cons a rest ih =>
    by_cases h : (repo.PostStats st a.1 (some a.2)).2 = .returned none
    · rw [replayPosts_cons_ok repo st a rest h] at hlog ⊢
      cases pre with
      | nil =>
        simp only [List.nil_append, List.cons.injEq, RepoCall.post.injEq] at hlog
        exact absurd hlog.1.2.2.symm ho
      | cons x pre2 =>
        simp only [List.cons_append, List.cons.injEq] at hlog
        exact ih _ pre2 hlog.2
    · rw [replayPosts_cons_fail repo st a rest h] at hlog ⊢
      cases pre with
      | nil =>
        simp only [List.nil_append, List.cons.injEq, RepoCall.post.injEq] at hlog
        exact ⟨hlog.2.symm, hlog.1.2.2⟩
      | cons x pre2 =>
        simp at hlog

/-- A replay none of whose calls failed ends with nil. -/
theorem replayPosts_no_failed {σ : Type} (repo : RepositoryOps σ)
    (l : List (ContainerInfo × ContainerStats)) (st : σ)
    (h : ∀ c ∈ (replayPosts repo st l).2.1, c.failed = false) :
    (replayPosts repo st l).2.2 = .returned none := by
  induction l generalizing st with
  | nil => rfl
  | cons a rest ih =>
    by_cases ho : (repo.PostStats st a.1 (some a.2)).2 = .returned none
    · rw [replayPosts_cons_ok repo st a rest ho] at h ⊢
      exact ih _ (fun c hc => h c (List.mem_cons_of_mem _ hc))
    · rw [replayPosts_cons_fail repo st a rest ho] at h
      have hf := h _ (List.mem_cons_self _ _)
      cases hr : (repo.PostStats st a.1 (some a.2)).2 with
      | panicked => rw [hr] at hf; simp [RepoCall.failed] at hf
      | returned err =>
        cases err with
        | none => exact absurd hr ho
        | some err => rw [hr] at hf; simp [RepoCall.failed] at hf

theorem replayPosts_no_read {σ : Type} (repo : RepositoryOps σ)
    (l : List (ContainerInfo × ContainerStats)) (st : σ) :
    RepoCall.read ∉ (replayPosts repo st l).2.1 := by
  induction l generalizing st with
  | nil => simp [replayPosts]
  | cons a rest ih =>
    by_cases ho : (repo.PostStats st a.1 (some a.2)).2 = .returned none
    · rw [replayPosts_cons_ok repo st a rest ho]
      simp only [List.mem_cons, not_or]
      exact ⟨by simp, ih _⟩
    · rw [replayPosts_cons_fail repo st a rest ho]
      simp

/-- The cycle on a repository with a record, in terms of the replay. -/
theorem GetMetricsList_logged {σ : Type} (repo : RepositoryOps σ) (st : σ)
    (infos : List (String × ContainerInfo)) :
    cadvisorService.GetMetricsList repo.logged (st, []) (.ok infos) =
      match (replayPosts repo st (postable infos)).2.2 with
      | .returned (some err) =>
        (((replayPosts repo st (postable infos)).1, (replayPosts repo st (postable infos)).2.1),
          .returned { Metrics := none } (some err))
      | .panicked =>
        (((replayPosts repo st (postable infos)).1, (replayPosts repo st (postable infos)).2.1),
          .panicked)
      | .returned none =>
        (((repo.GetMetricsList (replayPosts repo st (postable infos)).1).1,
            (replayPosts repo st (postable infos)).2.1 ++ [RepoCall.read]),
          .returned (repo.GetMetricsList (replayPosts repo st (postable infos)).1).2.1
            (repo.GetMetricsList (replayPosts repo st (postable infos)).1).2.2) := by
  unfold cadvisorService.GetMetricsList
  simp only [postLatest_logged, List.nil_append]
  cases ho : (replayPosts repo st (postable infos)).2.2 with
  | panicked => rfl
  | returned err =>
    cases err with
    | none => simp only [logged_GetMetricsList]
    | some err => rfl

theorem postable_filter (infos : List (String × ContainerInfo)) :
    postable (infos.filter fun e => (latestContainerStats e.2).2) = postable infos := by
  induction infos with
  | nil => rfl
  | cons e rest ih =>
    cases hl : lastSample e.2 with
    | none =>
      have hf : (latestContainerStats e.2).2 = false := by
        rw [latestContainerStats_eq, hl]
      rw [List.filter_cons_of_neg (by simp [hf]), ih, postable_cons_none e rest hl]
    | some s =>
      have hf : (latestContainerStats e.2).2 = true := by
        rw [latestContainerStats_eq, hl]
      rw [List.filter_cons_of_pos (by simp [hf]), postable_cons_some e _ s hl, ih,
        postable_cons_some e rest s hl]

/-- The record of a cycle: the calls of the replay, followed by one read when the
replay ended with nil. -/
theorem cycle_log {σ : Type} (repo : RepositoryOps σ) (st : σ)
    (infos : List (String × ContainerInfo)) :
    (cadvisorService.GetMetricsList repo.logged (st, []) (.ok infos)).1.2 =
      (replayPosts repo st (postable infos)).2.1 ++
        (if (replayPosts repo st (postable infos)).2.2 = .returned none then [RepoCall.read]
          else []) := by
  rw [GetMetricsList_logged]
  cases ho : (replayPosts repo st (postable infos)).2.2 with
  | panicked => simp
  | returned err =>
    cases err with
    | none => simp
    | some err => simp

/-- C14 (amended): `latestContainerStats` returns the last sample and true when the sample
sequence is not empty and its last element is not nil, and nil and false otherwise.
In the scrape cycle the containers for which it returns false change nothing: the
cycle runs as on the other containers alone.  The posts the cycle makes are made on
the first of those other containers, in order, once each and with the last sample;
when no post fails, every one of them is posted. -/
theorem C14_latest_sample_posted {σ : Type} (repo : RepositoryOps σ) (st : σ)
    (infos : List (String × ContainerInfo)) :
    (∀ info : ContainerInfo, latestContainerStats info =
      match info.Stats.getLast? with
      | some (some s) => (some s, true)
      | _ => (none, false)) ∧
    cadvisorService.GetMetricsList repo st (.ok infos) =
      cadvisorService.GetMetricsList repo st
        (.ok (infos.filter fun e => (latestContainerStats e.2).2)) ∧
    (cadvisorService.GetMetricsList repo.logged (st, []) (.ok infos)).1.2.filterMap
        RepoCall.postArgs <+: (postable infos).map (fun a => (a.1, some a.2)) ∧
    ((∀ c ∈ (cadvisorService.GetMetricsList repo.logged (st, []) (.ok infos)).1.2,
        c.failed = false) →
      (cadvisorService.GetMetricsList repo.logged (st, []) (.ok infos)).1.2.filterMap
        RepoCall.postArgs = (postable infos).map (fun a => (a.1, some a.2))) := by
  have hargs : (cadvisorService.GetMetricsList repo.logged (st, []) (.ok infos)).1.2.filterMap
      RepoCall.postArgs
        = (replayPosts repo st (postable infos)).2.1.filterMap RepoCall.postArgs := by
    rw [cycle_log, List.filterMap_append]
    split <;> simp [RepoCall.postArgs]
  refine ⟨?_, ?_, ?_, ?_⟩
  · intro info
    rw [latestContainerStats_eq]
    unfold lastSample
    cases info.Stats.getLast? with
    | none => rfl
    | some y =>
      cases y with
      | none => rfl
      | some z => rfl
  · unfold cadvisorService.GetMetricsList
    simp only [postLatest_eq_replay, postable_filter]
  · rw [hargs]
    exact replayPosts_args_prefix repo (postable infos) st
  · intro hall
    rw [hargs]
    have hrep : ∀ c ∈ (replayPosts repo st (postable infos)).2.1, c.failed = false := by
      intro c hc
      apply hall
      rw [cycle_log]
      exact List.mem_append_left _ hc
    rw [replayPosts_ok repo _ st (replayPosts_no_failed repo _ st hrep), List.filterMap_map]
    rw [← List.filterMap_eq_map]
    rfl

/-- C14 (witness): of the four containers, the one without samples and the one whose
last sample is nil are skipped; the two others are posted once, with their last
sample. -/
theorem C14_latest_sample_posted_witness :
    (∀ c ∈ (cadvisorService.GetMetricsList sampleRepoOk.logged (0, []) (.ok sampleInfos)).1.2,
      c.failed = false) ∧
    (cadvisorService.GetMetricsList sampleRepoOk.logged (0, []) (.ok sampleInfos)).1.2.filterMap
        RepoCall.postArgs =
      [ (sampleInfoWith [some sampleStatsNoFs, some sampleStats], some sampleStats),
        (sampleInfoWith [some sampleStatsNoFs], some sampleStatsNoFs) ] := by
  have hall : ∀ c ∈ (cadvisorService.GetMetricsList sampleRepoOk.logged (0, [])
      (.ok sampleInfos)).1.2, c.failed = false := by decide
  refine ⟨hall, ?_⟩
  rw [(C14_latest_sample_posted sampleRepoOk 0 sampleInfos).2.2.2 hall]
  decide

/-- The two repositories return the empty list with every error of a read. -/
theorem GetMetricsList_error_empty (cr : CAdvisorRepository) (q : QueryEnv) (err : String)
    (h : (cr.GetMetricsList q).2 = some err) : (cr.GetMetricsList q).1 = { Metrics := none } := by
  cases cr with
  | cadvisorRepositoryMemory => rfl
  | cadvisorRepositoryInfluxDB client =>
    unfold CAdvisorRepository.GetMetricsList at h ⊢
    cases hg : client.GetStats q with
    | error e => simp only [hg]
    | ok stats =>
      simp only [hg] at h ⊢
      cases hm : marshalStats stats [] with
      | error e => simp only [hm]
      | ok metrics => simp [hm] at h

/-- C15: a failure of the metrics source ends the cycle with the empty list and the
error, before any call on the repository.  A post that does not return nil is the
last call of the cycle: no post and no read follows it, and the cycle returns the
empty list with the error of the post.  When no post fails, the cycle makes its posts,
then exactly one read, and returns what the read returns; both repositories return
the empty list with every error of a read, and so the cycle returns the empty list
with every error it returns. -/
theorem C15_cycle_errors {σ : Type} (repo : RepositoryOps σ) (st : σ)
    (infos : List (String × ContainerInfo)) :
    (∀ e : String,
      cadvisorService.GetMetricsList repo.logged (st, []) (.error e)
        = ((st, []), .returned { Metrics := none } (some e))) ∧
    (∀ (pre suf : List RepoCall) (info : ContainerInfo) (stat : Option ContainerStats)
        (o : Outcome),
      (cadvisorService.GetMetricsList repo.logged (st, []) (.ok infos)).1.2
          = pre ++ RepoCall.post info stat o :: suf →
      o ≠ .returned none →
      suf = [] ∧
      (cadvisorService.GetMetricsList repo.logged (st, []) (.ok infos)).2 =
        match o with
        | .returned (some err) => .returned { Metrics := none } (some err)
        | _ => .panicked) ∧
    ((∀ c ∈ (cadvisorService.GetMetricsList repo.logged (st, []) (.ok infos)).1.2,
        c.failed = false) →
      (cadvisorService.GetMetricsList repo.logged (st, []) (.ok infos)).1.2
        = (postable infos).map (fun a => RepoCall.post a.1 (some a.2) (.returned none))
          ++ [RepoCall.read] ∧
      (cadvisorService.GetMetricsList repo.logged (st, []) (.ok infos)).2
        = .returned (repo.GetMetricsList (postLatest repo st infos).1).2.1
            (repo.GetMetricsList (postLatest repo st infos).1).2.2) ∧
    (∀ (cr : CAdvisorRepository) (q : QueryEnv) (err : String),
      (cr.GetMetricsList q).2 = some err → (cr.GetMetricsList q).1 = { Metrics := none }) ∧
    ((∀ (st2 : σ) (err : String), (repo.GetMetricsList st2).2.2 = some err →
        (repo.GetMetricsList st2).2.1 = { Metrics := none }) →
      ∀ (src : Except String (List (String × ContainerInfo))) (list : MetricsList)
        (err : String),
        (cadvisorService.GetMetricsList repo st src).2 = .returned list (some err) →
        list = { Metrics := none }) := by
  refine ⟨fun _ => rfl, ?_, ?_, GetMetricsList_error_empty, ?_⟩
  · intro pre suf info stat o hlog ho
    rw [cycle_log] at hlog
    rw [GetMetricsList_logged]
    by_cases hr : (replayPosts repo st (postable infos)).2.2 = .returned none
    · exfalso
      rw [if_pos hr, replayPosts_ok repo _ st hr] at hlog
      have hmem : RepoCall.post info stat o ∈
          (postable infos).map (fun a => RepoCall.post a.1 (some a.2) (.returned none))
            ++ [RepoCall.read] := by
        rw [hlog]
        exact List.mem_append_right _ (List.mem_cons_self _ _)
      rw [List.mem_append, List.mem_map] at hmem
      rcases hmem with ⟨a, _, ha⟩ | hmem
      · simp only [RepoCall.post.injEq] at ha
        exact ho ha.2.2.symm
      · simp at hmem
    · rw [if_neg hr, List.append_nil] at hlog
      obtain ⟨hsuf, hout⟩ := replayPosts_failed_last repo _ st pre suf info stat o hlog ho
      refine ⟨hsuf, ?_⟩
      rw [hout]
      cases o with
      | panicked => rfl
      | returned err =>
        cases err with
        | none => exact absurd rfl ho
        | some err => rfl
  · intro hall
    have hrep : ∀ c ∈ (replayPosts repo st (postable infos)).2.1, c.failed = false := by
      intro c hc
      apply hall
      rw [cycle_log]
      exact List.mem_append_left _ hc
    have hr := replayPosts_no_failed repo _ st hrep
    constructor
    · rw [cycle_log, if_pos hr, replayPosts_ok repo _ st hr]
    · rw [GetMetricsList_logged, postLatest_eq_replay]
      simp only [hr]
  · intro hread src list err hres
    unfold cadvisorService.GetMetricsList at hres
    cases src with
    | error e =>
      simp only [CycleResult.returned.injEq] at hres
      exact hres.1.symm
    | ok infos2 =>
      simp only at hres
      cases ho : (postLatest repo st infos2).2 with
      | panicked => simp [ho] at hres
      | returned e =>
        cases e with
        | some e =>
          simp only [ho, CycleResult.returned.injEq] at hres
          exact hres.1.symm
        | none =>
          simp only [ho, CycleResult.returned.injEq] at hres
          rw [← hres.1]
          exact hread _ err hres.2

/-- C15 (witness): the second post fails; the cycle ends there with the empty list and
the error of that post, after two posts and without a read. -/
theorem C15_cycle_errors_witness :
    (cadvisorService.GetMetricsList sampleRepo.logged (0, []) (.ok sampleInfos)).1.2 =
      [ RepoCall.post (sampleInfoWith [some sampleStatsNoFs, some sampleStats])
          (some sampleStats) (.returned none) ] ++
        RepoCall.post (sampleInfoWith [some sampleStatsNoFs]) (some sampleStatsNoFs)
          (.returned (some "post failed")) :: [] ∧
    (cadvisorService.GetMetricsList sampleRepo.logged (0, []) (.ok sampleInfos)).2 =
      .returned { Metrics := none } (some "post failed") :=
  ⟨by decide,
    ((C15_cycle_errors sampleRepo 0 sampleInfos).2.1
      [RepoCall.post (sampleInfoWith [some sampleStatsNoFs, some sampleStats])
        (some sampleStats) (.returned none)] []
      (sampleInfoWith [some sampleStatsNoFs]) (some sampleStatsNoFs)
      (.returned (some "post failed")) (by decide) (by decide)).2⟩

/-! ## Calls outside the conditions of C9, C14 and C18 -/

/-- C9 (counterexample): with the default policy, buffer duration 10, last write at 0
and one point pending, a call with nil stats at time 20 is past the threshold and
delivers nothing; the point stays pending and `lastWrite` stays 0. -/
theorem C9_nil_stats_call_never_delivers :
    sampleBufferedPending.readyToFlush = .defaultReadyToFlush ∧
    sampleEnvAt20.sinceNow - sampleBufferedPending.lastWrite
      ≥ sampleBufferedPending.bufferDuration ∧
    (sampleBufferedPending.AddStats sampleEnvAt20 (sampleInfo []) none).written = none ∧
    (sampleBufferedPending.AddStats sampleEnvAt20 (sampleInfo []) none).client.lastWrite = 0 ∧
    (sampleBufferedPending.AddStats sampleEnvAt20 (sampleInfo []) none).client.points.length
      = 1 := by
  decide

/-- C14 (counterexample): of four containers two have a last sample.  On a repository
whose first post returns an error the cycle posts the first of them and ends with that
error: the second is never posted.  The same happens on the InfluxDB repository when
the post of the first container panics. -/
theorem C14_failed_post_ends_cycle :
    (postable sampleInfos).map (fun a => (a.1, some a.2)) =
      [ (sampleInfoWith [some sampleStatsNoFs, some sampleStats], some sampleStats),
        (sampleInfoWith [some sampleStatsNoFs], some sampleStatsNoFs) ] ∧
    (cadvisorService.GetMetricsList sampleRepoFailFirst.logged (0, [])
        (.ok sampleInfos)).1.2.filterMap RepoCall.postArgs =
      [ (sampleInfoWith [some sampleStatsNoFs, some sampleStats], some sampleStats) ] ∧
    (cadvisorService.GetMetricsList sampleRepoFailFirst.logged (0, []) (.ok sampleInfos)).2 =
      .returned { Metrics := none } (some "post failed") ∧
    (postable sampleInfosNoInterface).length = 2 ∧
    (cadvisorService.GetMetricsList
        (CAdvisorRepository.ops sampleEnv { queryErr := none, rows := [], iterErr := none }).logged
        (.cadvisorRepositoryInfluxDB sampleClient, []) (.ok sampleInfosNoInterface)).1.2 =
      [ RepoCall.post (sampleInfoWith [some sampleStatsNoInterface])
          (some sampleStatsNoInterface) .panicked ] := by
  decide

/-- C18 (counterexample): on the client `New` builds at time 0, a call on the sample
without memory statistics panics after `ContainerStatsToPoints` has appended its 11
points; the next call, on the sample, translates to 25 points and delivers a batch of
36, the 11 left pending and its own. -/
theorem C18_points_left_by_panic_delivered_later :
    New { Token := "t", Uri := "http://localhost:8086" } (.ok "host") 0 = .ok sampleClient ∧
    clockMonotone 0 samplePanicThenOk ∧
    (sampleClient.AddStats { sinceNow := 1, swapNow := 2, overrideAnswer := false, writeErr := none }
        (sampleInfo []) (some sampleStatsNoMemory)).outcome = .panicked ∧
    (sampleClient.AddStats { sinceNow := 1, swapNow := 2, overrideAnswer := false, writeErr := none }
        (sampleInfo []) (some sampleStatsNoMemory)).client.points.length = 11 ∧
    (sampleClient.translate (sampleInfo []) sampleStats).map List.length = some 25 ∧
    ((sampleClient.run samplePanicThenOk).2.map List.length,
        (sampleClient.run samplePanicThenOk).1.points.length) = ([36], 0) :=
  ⟨rfl, by simp [clockMonotone, samplePanicThenOk], by decide, by decide, by decide, by decide⟩

end Stalker
